import Mathlib

/-!
# Verification of the Pokémon battle-simulation server

This file gives a shallow embedding of the battle engine and the type
effectiveness tooling of `src/server.py` and proves the specified
properties about them.

* `TYPE_EFFECTIVENESS` mirrors the static chart (lines 131-150).
* `lookupEff` / `battleEffectiveness` mirror the multiplier computation of
  `simulate_battle` (lines 220-223): `TYPE_EFFECTIVENESS.get(move_type, {})
  .get(def_type, 1.0)` folded multiplicatively over the defender types.
* `damageCalc` mirrors the damage formula (lines 232-237), with Python's
  `int()` truncation modelled by `truncQ` on exact rationals.
* `selectMoveAux` mirrors the move-selection retry loop (lines 208-213),
  with the network modelled by an explicit environment `Env` of oracles.
* `turnStep` / `runBattle` mirror the main battle loop (lines 197-277) as a
  step function on an explicit attacker/defender state plus a fuelled
  iteration; the battle log is modelled as structured events.
* `getTypeEffectiveness` mirrors the single-pair query (lines 279-306) and
  `classifyFrom` the weakness/resistance breakdown (lines 324-341).
-/

/-- The three status ailments the engine can inflict
(`['paralysis', 'burn', 'poison']`, line 251). -/
inductive Ailment where
  | paralysis
  | burn
  | poison
deriving DecidableEq, Repr

/-- The membership test `ailment in ['paralysis', 'burn', 'poison']`
(line 251): any other ailment name is ignored. -/
def toAilment (s : String) : Option Ailment :=
  if s = "paralysis" then some Ailment.paralysis
  else if s = "burn" then some Ailment.burn
  else if s = "poison" then some Ailment.poison
  else none

/-- The static type chart of `server.py` (lines 131-150), as an association
list from attacking type to an association list from defending type to
multiplier. -/
def TYPE_EFFECTIVENESS : List (String × List (String × ℚ)) :=
  [ ("normal", [("rock", 1/2), ("ghost", 0)]),
    ("fire", [("fire", 1/2), ("water", 1/2), ("grass", 2), ("ice", 2), ("bug", 2), ("rock", 1/2), ("steel", 2)]),
    ("water", [("fire", 2), ("water", 1/2), ("grass", 1/2), ("ground", 2), ("rock", 2), ("dragon", 1/2)]),
    ("electric", [("water", 2), ("electric", 1/2), ("grass", 1/2), ("ground", 0), ("flying", 2), ("dragon", 1/2)]),
    ("grass", [("fire", 1/2), ("water", 2), ("grass", 1/2), ("poison", 1/2), ("ground", 2), ("flying", 1/2), ("bug", 1/2), ("rock", 2), ("dragon", 1/2), ("steel", 1/2)]),
    ("ice", [("fire", 1/2), ("water", 1/2), ("grass", 2), ("ice", 1/2), ("ground", 2), ("flying", 2), ("dragon", 2), ("steel", 1/2)]),
    ("fighting", [("normal", 2), ("ice", 2), ("poison", 1/2), ("flying", 1/2), ("psychic", 1/2), ("bug", 1/2), ("rock", 2), ("ghost", 0), ("dark", 2), ("steel", 2)]),
    ("poison", [("grass", 2), ("poison", 1/2), ("ground", 1/2), ("rock", 1/2), ("ghost", 1/2), ("steel", 0)]),
    ("ground", [("fire", 2), ("electric", 2), ("grass", 1/2), ("poison", 2), ("flying", 0), ("bug", 1/2), ("rock", 2), ("steel", 2)]),
    ("flying", [("electric", 1/2), ("grass", 2), ("fighting", 2), ("bug", 2), ("rock", 1/2), ("steel", 1/2)]),
    ("psychic", [("fighting", 2), ("poison", 2), ("psychic", 1/2), ("dark", 0), ("steel", 1/2)]),
    ("bug", [("fire", 1/2), ("grass", 2), ("fighting", 1/2), ("poison", 1/2), ("flying", 1/2), ("psychic", 2), ("ghost", 1/2), ("dark", 2), ("steel", 1/2)]),
    ("rock", [("fire", 2), ("ice", 2), ("fighting", 1/2), ("ground", 1/2), ("flying", 2), ("bug", 2), ("steel", 1/2)]),
    ("ghost", [("normal", 0), ("psychic", 2), ("ghost", 2), ("dark", 1/2)]),
    ("dragon", [("dragon", 2), ("steel", 1/2)]),
    ("dark", [("fighting", 1/2), ("psychic", 2), ("ghost", 2), ("dark", 1/2)]),
    ("steel", [("fire", 1/2), ("water", 1/2), ("electric", 1/2), ("ice", 2), ("rock", 2), ("dragon", 1), ("steel", 1/2)]),
    ("fairy", [("fire", 1/2), ("fighting", 2), ("poison", 1/2), ("dragon", 2), ("dark", 2), ("steel", 1/2)]) ]

/-- `TYPE_EFFECTIVENESS.get(move_type, {}).get(def_type, 1.0)` (line 223):
a single-pair multiplier with the battle engine's double default. -/
def lookupEff (moveType defType : String) : ℚ :=
  (((TYPE_EFFECTIVENESS.lookup moveType).getD []).lookup defType).getD 1

/-- The battle engine's compound multiplier (lines 221-223): start at `1.0`
and multiply the pair lookup for every defending type. -/
def battleEffectiveness (moveType : String) (defTypes : List String) : ℚ :=
  defTypes.foldl (fun eff d => eff * lookupEff moveType d) 1

/-- The `get_type_effectiveness` tool (lines 288-295): both inputs are
lower-cased, an attacking type missing from the chart is an error
(modelled as `none`), and an unlisted defending type defaults to `1.0`. -/
def getTypeEffectiveness (attackingType defendingType : String) : Option ℚ :=
  let a := attackingType.toLower
  let d := defendingType.toLower
  match TYPE_EFFECTIVENESS.lookup a with
  | none => none
  | some row => some ((row.lookup d).getD 1)

/-- `TYPE_EFFECTIVENESS.keys()` (line 329): the 18-element universe used by
the breakdown report. -/
def allTypes : List String := TYPE_EFFECTIVENESS.map Prod.fst

/-- The classification loop of `get_pokemon_weaknesses_and_resistances`
(lines 329-341): for each attacking type (processed in chart order) compute
the compound multiplier against the defending types and bucket it into
(weaknesses, resistances, immunities), labelling 4x/0.25x literally and
every other weak/resistant entry as 2x/0.5x. -/
def classifyFrom (defTypes : List String) : List String → List (String × String) × List (String × String) × List String
  | [] => ([], [], [])
  | a :: rest =>
    let acc := classifyFrom defTypes rest
    let e := battleEffectiveness a defTypes
    if 2 ≤ e then
      ((a, if e = 4 then "4x" else "2x") :: acc.1, acc.2.1, acc.2.2)
    else if e ≤ 1/2 ∧ 0 < e then
      (acc.1, (a, if e = 1/4 then "0.25x" else "0.5x") :: acc.2.1, acc.2.2)
    else if e = 0 then
      (acc.1, acc.2.1, a :: acc.2.2)
    else acc

/-- The full weakness/resistance breakdown over the 18-type universe. -/
def breakdown (defTypes : List String) : List (String × String) × List (String × String) × List String :=
  classifyFrom defTypes allTypes

/-- Python's `int()` applied to a nonnegative-or-negative rational:
truncation toward zero. -/
def truncQ (q : ℚ) : Int :=
  if 0 ≤ q then ⌊q⌋ else -⌊-q⌋

/-- The damage formula of `simulate_battle` (lines 232-237):
`int((((2/5 + 2) * power * (attack / defense)) / 50) * effectiveness + 2)`,
then halved (with another `int` truncation) when the attacker is burned. -/
def damageCalc (atkStat defStat : Nat) (power : Int) (eff : ℚ) (status : Option Ailment) : Int :=
  let base : ℚ := ((2/5 + 2) * (power : ℚ) * ((atkStat : ℚ) / (defStat : ℚ))) / 50
  let d : Int := truncQ (base * eff + 2)
  if status = some Ailment.burn then truncQ ((d : ℚ) * (1/2)) else d

/-- One side of the battle, mirroring the per-Pokémon state dict built at
lines 172-191.  `hp` is the mutable `currentHP` (an `Int`, since the code
lets it go negative); `maxHp` is the original HP base stat
(`p_data['stats'][0]['base_stat']`), which the code re-reads for the
end-of-turn tick and which is never mutated. -/
structure Combatant where
  name : String
  hp : Int
  maxHp : Nat
  attack : Nat
  defense : Nat
  speed : Nat
  types : List String
  moves : List String
  status : Option Ailment
deriving DecidableEq, Repr

/-- The `ailment`/`ailment_chance` fields of a move's `meta` dict
(lines 249-250). -/
structure MoveMeta where
  ailment : String
  ailment_chance : Nat
deriving DecidableEq, Repr

/-- A resolved move payload as used by the battle loop: `power` (line 212,
may be `null`), `type` (line 217) and the optional `meta` dict (line 248,
`none` covers both a missing and a falsy `meta`). -/
structure RawMove where
  name : String
  power : Option Int
  type : String
  meta : Option MoveMeta
deriving DecidableEq, Repr

/-- The usability filter of the selection loop (line 212):
`power is not None and power > 0`. -/
def usableMove (m : RawMove) : Bool :=
  match m.power with
  | some p => 0 < p
  | none => false

/-- The external world of `simulate_battle`: the random source and the move
provider, modelled as oracles indexed by turn number (and retry attempt).
`fetch t k url` is the provider response for the `k`-th selection attempt
of turn `t` (`none` models a failed `_make_api_request`), `chooseMove t k`
drives `random.choice`, `paraRoll t` the paralysis roll (line 203) and
`ailmentRoll t` the ailment roll (line 251). -/
structure Env where
  fetch : Nat → Nat → String → Option RawMove
  chooseMove : Nat → Nat → Nat
  paraRoll : Nat → ℚ
  ailmentRoll : Nat → ℚ

/-- The move-selection retry loop (lines 208-213): draw a random move URL,
resolve it via the provider, and retry (with a fresh draw) until the
response is present and has usable power.  The loop is fuelled; `none`
means it did not terminate within the fuel. -/
def selectMoveAux (env : Env) (t : Nat) (moves : List String) : Nat → Nat → Option RawMove
  | _, 0 => none
  | k, fuel + 1 =>
    match moves[env.chooseMove t k % moves.length]? with
    | none => none
    | some ref =>
      match env.fetch t k ref with
      | some m => if usableMove m then some m else selectMoveAux env t moves (k + 1) fuel
      | none => selectMoveAux env t moves (k + 1) fuel

/-- A structured battle-log event, one per `battle_log.append` in the loop
(lines 200-270).  `tookDamage` records the displayed HP
`max(0, defender['hp'])` (line 240). -/
inductive Event where
  | turnBanner (turn : Nat)
  | paralyzedSkip (name : String)
  | usedMove (name moveName : String)
  | superEffective
  | notVeryEffective
  | noEffect (defName : String)
  | tookDamage (name : String) (dmg : Int) (shownHp : Int)
  | fainted (name : String)
  | afflicted (name : String) (ailment : String)
  | statusDamage (name : String) (dmg : Int)
  | blank
deriving DecidableEq, Repr

/-- The effectiveness commentary (lines 225-230). -/
def effEvents (eff : ℚ) (defName : String) : List Event :=
  if 1 < eff then [Event.superEffective]
  else if eff < 1 ∧ 0 < eff then [Event.notVeryEffective]
  else if eff = 0 then [Event.noEffect defName]
  else []

/-- The battle state: the two role slots (`attacker`, `defender` swap by
reference each turn, line 268), a flag recording whether the attacker slot
currently holds the first-listed Pokémon, and the turn counter. -/
structure BattleState where
  atk : Combatant
  dfd : Combatant
  atkIsP1 : Bool
  turn : Nat
deriving DecidableEq, Repr

/-- The first-listed Pokémon (`pokemon1`). -/
def p1 (s : BattleState) : Combatant := if s.atkIsP1 then s.atk else s.dfd

/-- The second-listed Pokémon (`pokemon2`). -/
def p2 (s : BattleState) : Combatant := if s.atkIsP1 then s.dfd else s.atk

/-- `attacker, defender = defender, attacker` and `turn += 1`
(lines 268-269). -/
def swapState (s : BattleState) : BattleState :=
  { atk := s.dfd, dfd := s.atk, atkIsP1 := !s.atkIsP1, turn := s.turn + 1 }

/-- Initial role assignment (line 194): the first-listed Pokémon attacks
first iff `pokemon1['speed'] >= pokemon2['speed']`. -/
def initState (pk1 pk2 : Combatant) : BattleState :=
  if pk2.speed ≤ pk1.speed then ⟨pk1, pk2, true, 1⟩ else ⟨pk2, pk1, false, 1⟩

/-- The outcome of one iteration of the battle loop: either the loop
continues with a swapped state (`next`), or a `break` was taken after a
faint (`finished`).  Both carry the events appended during the turn. -/
inductive StepResult where
  | next (s : BattleState) (log : List Event)
  | finished (s : BattleState) (log : List Event)
deriving DecidableEq, Repr

/-- Status application after a surviving hit (lines 247-253): only when the
move has a (truthy) `meta`, the defender has no status yet, the ailment is
one of paralysis/burn/poison, and the roll beats `ailment_chance / 100`. -/
def applyAilment (env : Env) (t : Nat) (m : RawMove) (c : Combatant) : Combatant × List Event :=
  match m.meta with
  | none => (c, [])
  | some mt =>
    if c.status = none then
      match toAilment mt.ailment with
      | none => (c, [])
      | some a =>
        if env.ailmentRoll t < (mt.ailment_chance : ℚ) / 100 then
          ({ c with status := some a }, [Event.afflicted c.name mt.ailment])
        else (c, [])
    else (c, [])

/-- End-of-turn status damage (lines 256-265): if the acting combatant is
poisoned or burned it loses `int(original_max_hp / 8)` HP; a faint here
breaks the loop, otherwise roles swap for the next turn. -/
def endOfTurnTick (s : BattleState) (log : List Event) : StepResult :=
  if s.atk.status = some Ailment.poison ∨ s.atk.status = some Ailment.burn then
    let statusDamage : Int := (s.atk.maxHp / 8 : Nat)
    let atk2 := { s.atk with hp := s.atk.hp - statusDamage }
    let log2 := log ++ [Event.statusDamage s.atk.name statusDamage]
    if atk2.hp ≤ 0 then
      StepResult.finished { s with atk := atk2 } (log2 ++ [Event.fainted s.atk.name])
    else
      StepResult.next (swapState { s with atk := atk2 }) (log2 ++ [Event.blank])
  else
    StepResult.next (swapState s) (log ++ [Event.blank])

/-- The attack phase for an already-selected move (lines 215-253): compute
the compound effectiveness, apply the damage formula, break immediately if
the defender faints, otherwise attempt the status ailment and fall through
to the end-of-turn tick. -/
def actionPhase (env : Env) (s : BattleState) (m : RawMove) : StepResult :=
  let power : Int := m.power.getD 0
  let eff := battleEffectiveness m.type s.dfd.types
  let dmg := damageCalc s.atk.attack s.dfd.defense power eff s.atk.status
  let dfd2 := { s.dfd with hp := s.dfd.hp - dmg }
  let log1 := [Event.turnBanner s.turn, Event.usedMove s.atk.name m.name] ++
    effEvents eff s.dfd.name ++ [Event.tookDamage s.dfd.name dmg (max 0 dfd2.hp)]
  if dfd2.hp ≤ 0 then
    StepResult.finished { s with dfd := dfd2 } (log1 ++ [Event.fainted s.dfd.name])
  else
    let res := applyAilment env s.turn m dfd2
    endOfTurnTick { s with dfd := res.1 } (log1 ++ res.2)

/-- One iteration of the main battle loop (lines 200-270): a paralysis roll
may skip the whole action phase (line 203), otherwise the move-selection
loop runs (returning `none` if it does not terminate within `selFuel`) and
the action phase executes. -/
def turnStep (env : Env) (selFuel : Nat) (s : BattleState) : Option StepResult :=
  if s.atk.status = some Ailment.paralysis ∧ env.paraRoll s.turn < 1/4 then
    some (endOfTurnTick s [Event.turnBanner s.turn, Event.paralyzedSkip s.atk.name])
  else
    match selectMoveAux env s.turn s.atk.moves 0 selFuel with
    | none => none
    | some m => some (actionPhase env s m)

/-- The fuelled battle loop (line 199: `while pokemon1['hp'] > 0 and
pokemon2['hp'] > 0`): `none` means some resource (battle fuel or move
selection) ran out before the loop exited. -/
def runBattle (env : Env) (selFuel : Nat) : Nat → BattleState → List Event → Option (BattleState × List Event)
  | 0, _, _ => none
  | fuel + 1, s, log =>
    if 0 < (p1 s).hp ∧ 0 < (p2 s).hp then
      match turnStep env selFuel s with
      | none => none
      | some (StepResult.finished s2 l) => some (s2, log ++ l)
      | some (StepResult.next s2 l) => runBattle env selFuel fuel s2 (log ++ l)
    else some (s, log)

/-- The battle reaches the terminal `Resolved` state: some amount of fuel
makes the loop exit. -/
def resolves (env : Env) (selFuel : Nat) (s : BattleState) : Prop :=
  ∃ n r, runBattle env selFuel n s [] = some r

/-- Winner determination (line 273): `pokemon1 if pokemon1['hp'] > 0 else
pokemon2`. -/
def winner (s : BattleState) : Combatant :=
  if 0 < (p1 s).hp then p1 s else p2 s

/-! ## Basic helper lemmas -/

theorem lookup_mem {α β : Type} [BEq α] [LawfulBEq α] :
    ∀ {l : List (α × β)} {a : α} {b : β}, l.lookup a = some b → (a, b) ∈ l := by
  intro l
  induction l with
  | nil => intro a b h; simp [List.lookup] at h
  | cons p rest ih =>
    intro a b h
    rw [List.lookup] at h
    cases hc : a == p.1 with
    | false =>
      rw [hc] at h
      right
      exact ih h
    | true =>
      rw [hc] at h
      simp only [Option.some.injEq] at h
      have ha : a = p.1 := eq_of_beq hc
      rw [ha, ← h]
      exact List.mem_cons_self _ _

theorem truncQ_eq_floor {q : ℚ} (h : 0 ≤ q) : truncQ q = ⌊q⌋ := by
  unfold truncQ
  rw [if_pos h]

theorem truncQ_eval {q : ℚ} {n : Int} (hn : 0 ≤ n) (h1 : (n : ℚ) ≤ q) (h2 : q < n + 1) :
    truncQ q = n := by
  have hq : (0 : ℚ) ≤ q := le_trans (by exact_mod_cast hn) h1
  rw [truncQ_eq_floor hq]
  rw [Int.floor_eq_iff]
  constructor
  · exact h1
  · exact_mod_cast h2

theorem te_nonneg : ∀ p ∈ TYPE_EFFECTIVENESS, ∀ q ∈ p.2, 0 ≤ q.2 := by
  intro p hp
  unfold TYPE_EFFECTIVENESS at hp
  fin_cases hp <;> intro q hq <;> fin_cases hq <;> norm_num

theorem lookupEff_nonneg (a d : String) : 0 ≤ lookupEff a d := by
  unfold lookupEff
  cases hrow : TYPE_EFFECTIVENESS.lookup a with
  | none => simp [List.lookup]
  | some row =>
    simp only [Option.getD_some]
    cases hval : row.lookup d with
    | none => simp
    | some v =>
      simp only [Option.getD_some]
      simpa using te_nonneg _ (lookup_mem hrow) _ (lookup_mem hval)

theorem battleEffectiveness_nonneg (a : String) (dts : List String) :
    0 ≤ battleEffectiveness a dts := by
  unfold battleEffectiveness
  suffices h : ∀ acc : ℚ, 0 ≤ acc → 0 ≤ dts.foldl (fun eff d => eff * lookupEff a d) acc by
    exact h 1 (by norm_num)
  induction dts with
  | nil => intro acc hacc; simpa using hacc
  | cons d rest ih =>
    intro acc hacc
    exact ih _ (mul_nonneg hacc (lookupEff_nonneg a d))

theorem damageCalc_base_nonneg (a d : Nat) (power : Int) (eff : ℚ)
    (hp : 0 ≤ power) (he : 0 ≤ eff) :
    0 ≤ ((2/5 + 2) * (power : ℚ) * ((a : ℚ) / (d : ℚ))) / 50 * eff := by
  have h1 : (0 : ℚ) ≤ (2/5 + 2) * (power : ℚ) * ((a : ℚ) / (d : ℚ)) := by
    apply mul_nonneg
    · apply mul_nonneg
      · norm_num
      · exact_mod_cast hp
    · apply div_nonneg <;> positivity
  have h2 : (0 : ℚ) ≤ ((2/5 + 2) * (power : ℚ) * ((a : ℚ) / (d : ℚ))) / 50 := by
    apply div_nonneg h1
    norm_num
  exact mul_nonneg h2 he

theorem damageCalc_ge_two (a d : Nat) (power : Int) (eff : ℚ) (st : Option Ailment)
    (hp : 0 ≤ power) (he : 0 ≤ eff) (hb : st ≠ some Ailment.burn) :
    2 ≤ damageCalc a d power eff st := by
  unfold damageCalc
  rw [if_neg hb]
  have hbase := damageCalc_base_nonneg a d power eff hp he
  rw [truncQ_eq_floor (by linarith)]
  have h : ((2 : ℚ)) ≤ ((2/5 + 2) * (power : ℚ) * ((a : ℚ) / (d : ℚ))) / 50 * eff + 2 := by
    linarith
  calc (2 : Int) = ⌊(2 : ℚ)⌋ := by norm_num
    _ ≤ _ := Int.floor_le_floor h

theorem damageCalc_ge_one (a d : Nat) (power : Int) (eff : ℚ) (st : Option Ailment)
    (hp : 0 ≤ power) (he : 0 ≤ eff) :
    1 ≤ damageCalc a d power eff st := by
  by_cases hb : st = some Ailment.burn
  · unfold damageCalc
    rw [if_pos hb]
    have hbase := damageCalc_base_nonneg a d power eff hp he
    have h2 : (2 : Int) ≤ truncQ (((2/5 + 2) * (power : ℚ) * ((a : ℚ) / (d : ℚ))) / 50 * eff + 2) := by
      rw [truncQ_eq_floor (by linarith)]
      have h : ((2 : ℚ)) ≤ ((2/5 + 2) * (power : ℚ) * ((a : ℚ) / (d : ℚ))) / 50 * eff + 2 := by
        linarith
      calc (2 : Int) = ⌊(2 : ℚ)⌋ := by norm_num
        _ ≤ _ := Int.floor_le_floor h
    set dmg := truncQ (((2/5 + 2) * (power : ℚ) * ((a : ℚ) / (d : ℚ))) / 50 * eff + 2) with hdmg
    have hq : (1 : ℚ) ≤ (dmg : ℚ) * (1/2) := by
      have hd : (2 : ℚ) ≤ (dmg : ℚ) := by exact_mod_cast h2
      linarith
    rw [truncQ_eq_floor (by linarith)]
    calc (1 : Int) = ⌊(1 : ℚ)⌋ := by norm_num
      _ ≤ _ := Int.floor_le_floor hq
  · have := damageCalc_ge_two a d power eff st hp he hb
    omega

theorem damageCalc_nonneg (a d : Nat) (power : Int) (eff : ℚ) (st : Option Ailment)
    (hp : 0 ≤ power) (he : 0 ≤ eff) :
    0 ≤ damageCalc a d power eff st := by
  have := damageCalc_ge_one a d power eff st hp he
  omega

theorem selectMoveAux_usable (env : Env) (t : Nat) (moves : List String) :
    ∀ fuel k m, selectMoveAux env t moves k fuel = some m → usableMove m = true := by
  intro fuel
  induction fuel with
  | zero => intro k m h; simp [selectMoveAux] at h
  | succ n ih =>
    intro k m h
    rw [selectMoveAux] at h
    split at h
    next => simp at h
    next ref _ =>
      split at h
      next mv hf =>
        split at h
        next hu => cases h; exact hu
        next => exact ih _ _ h
      next => exact ih _ _ h

theorem usableMove_power {m : RawMove} (h : usableMove m = true) : 0 < m.power.getD 0 := by
  unfold usableMove at h
  cases hp : m.power with
  | none => rw [hp] at h; simp at h
  | some p =>
    rw [hp] at h
    simp only [decide_eq_true_eq] at h
    simpa using h

/-! ## Structural lemmas about the battle-step components -/

theorem applyAilment_fields (env : Env) (t : Nat) (m : RawMove) (c : Combatant) :
    (applyAilment env t m c).1.name = c.name ∧ (applyAilment env t m c).1.hp = c.hp ∧
    (applyAilment env t m c).1.maxHp = c.maxHp ∧ (applyAilment env t m c).1.attack = c.attack ∧
    (applyAilment env t m c).1.defense = c.defense ∧ (applyAilment env t m c).1.speed = c.speed ∧
    (applyAilment env t m c).1.types = c.types ∧ (applyAilment env t m c).1.moves = c.moves := by
  unfold applyAilment
  split
  · simp
  · split
    · split
      · simp
      · split <;> simp
    · simp

theorem applyAilment_status_pres (env : Env) (t : Nat) (m : RawMove) (c : Combatant)
    (a : Ailment) (h : c.status = some a) :
    (applyAilment env t m c).1.status = some a := by
  unfold applyAilment
  split
  · exact h
  · rw [if_neg (by rw [h]; simp)]
    exact h

theorem applyAilment_status_change (env : Env) (t : Nat) (m : RawMove) (c : Combatant)
    (h : (applyAilment env t m c).1.status ≠ c.status) :
    c.status = none ∧ ∃ mt a, m.meta = some mt ∧ toAilment mt.ailment = some a ∧
      (applyAilment env t m c).1.status = some a ∧
      env.ailmentRoll t < (mt.ailment_chance : ℚ) / 100 := by
  unfold applyAilment at h ⊢
  split at h
  · exact absurd rfl h
  · next mt hmt =>
    split at h
    · next hnone =>
      split at h
      · exact absurd rfl h
      · next a ha =>
        split at h
        · next hroll =>
          refine ⟨hnone, mt, a, hmt, ha, ?_, hroll⟩
          rw [if_pos hnone, if_pos hroll]
        · exact absurd rfl h
    · exact absurd rfl h

theorem applyAilment_sets (env : Env) (t : Nat) (m : RawMove) (c : Combatant)
    (mt : MoveMeta) (a : Ailment) (hmt : m.meta = some mt) (hst : c.status = none)
    (ha : toAilment mt.ailment = some a)
    (hroll : env.ailmentRoll t < (mt.ailment_chance : ℚ) / 100) :
    (applyAilment env t m c).1.status = some a := by
  unfold applyAilment
  simp only [hmt]
  rw [if_pos hst]
  simp only [ha]
  rw [if_pos hroll]

theorem applyAilment_ignored (env : Env) (t : Nat) (m : RawMove) (c : Combatant)
    (mt : MoveMeta) (hmt : m.meta = some mt) (ha : toAilment mt.ailment = none) :
    applyAilment env t m c = (c, []) := by
  unfold applyAilment
  simp only [hmt]
  split
  · rw [ha]
  · rfl

theorem endOfTurnTick_next (s : BattleState) (log : List Event) (s2 : BattleState)
    (l : List Event) (h : endOfTurnTick s log = StepResult.next s2 l) :
    s2.atkIsP1 = !s.atkIsP1 ∧ s2.turn = s.turn + 1 ∧ s2.atk = s.dfd ∧
    s2.dfd.name = s.atk.name ∧ s2.dfd.maxHp = s.atk.maxHp ∧
    s2.dfd.attack = s.atk.attack ∧ s2.dfd.defense = s.atk.defense ∧
    s2.dfd.speed = s.atk.speed ∧ s2.dfd.types = s.atk.types ∧
    s2.dfd.moves = s.atk.moves ∧ s2.dfd.status = s.atk.status ∧
    s2.dfd.hp ≤ s.atk.hp ∧ (0 < s.atk.hp → 0 < s2.dfd.hp) ∧
    (¬(s.atk.status = some Ailment.poison ∨ s.atk.status = some Ailment.burn) →
      s2.dfd.hp = s.atk.hp) ∧
    ((s.atk.status = some Ailment.poison ∨ s.atk.status = some Ailment.burn) →
      s2.dfd.hp = s.atk.hp - ((s.atk.maxHp / 8 : Nat) : Int)) ∧
    ((s.atk.status = some Ailment.poison ∨ s.atk.status = some Ailment.burn) →
      0 < s2.dfd.hp) := by
  simp only [endOfTurnTick] at h
  split at h
  · next hst =>
    split at h
    · exact StepResult.noConfusion h
    · next hpos =>
      cases h
      refine ⟨rfl, rfl, rfl, rfl, rfl, rfl, rfl, rfl, rfl, rfl, rfl, ?_, ?_, ?_, ?_, ?_⟩
      · show s.atk.hp - ((s.atk.maxHp / 8 : Nat) : Int) ≤ s.atk.hp
        omega
      · intro _
        simp only [not_le] at hpos
        exact hpos
      · intro hc
        exact absurd hst hc
      · intro _
        rfl
      · intro _
        simp only [not_le] at hpos
        exact hpos
  · next hst =>
    cases h
    refine ⟨rfl, rfl, rfl, rfl, rfl, rfl, rfl, rfl, rfl, rfl, rfl, le_refl _, fun h2 => h2, fun _ => rfl, ?_, ?_⟩
    · intro hc
      exact absurd hc hst
    · intro hc
      exact absurd hc hst

theorem endOfTurnTick_finished (s : BattleState) (log : List Event) (s2 : BattleState)
    (l : List Event) (h : endOfTurnTick s log = StepResult.finished s2 l) :
    s2.atkIsP1 = s.atkIsP1 ∧ s2.turn = s.turn ∧ s2.dfd = s.dfd ∧
    s2.atk.hp = s.atk.hp - ((s.atk.maxHp / 8 : Nat) : Int) ∧ s2.atk.hp ≤ 0 ∧
    s2.atk.status = s.atk.status ∧ s2.atk.moves = s.atk.moves ∧
    s2.atk.maxHp = s.atk.maxHp ∧ s2.atk.name = s.atk.name ∧
    (s.atk.status = some Ailment.poison ∨ s.atk.status = some Ailment.burn) := by
  simp only [endOfTurnTick] at h
  split at h
  · next hst =>
    split at h
    · next hle =>
      cases h
      exact ⟨rfl, rfl, rfl, rfl, hle, rfl, rfl, rfl, rfl, hst⟩
    · exact StepResult.noConfusion h
  · exact StepResult.noConfusion h

theorem actionPhase_next_decomp (env : Env) (s : BattleState) (m : RawMove)
    (s2 : BattleState) (l : List Event)
    (h : actionPhase env s m = StepResult.next s2 l) :
    ∃ dmg c2 log2,
      dmg = damageCalc s.atk.attack s.dfd.defense (m.power.getD 0)
        (battleEffectiveness m.type s.dfd.types) s.atk.status ∧
      ¬(s.dfd.hp - dmg ≤ 0) ∧
      c2 = (applyAilment env s.turn m { s.dfd with hp := s.dfd.hp - dmg }).1 ∧
      endOfTurnTick { s with dfd := c2 } log2 = StepResult.next s2 l := by
  simp only [actionPhase] at h
  split at h
  · exact StepResult.noConfusion h
  · next hsurv =>
    exact ⟨_, _, _, rfl, hsurv, rfl, h⟩

theorem actionPhase_finished_decomp (env : Env) (s : BattleState) (m : RawMove)
    (s2 : BattleState) (l : List Event)
    (h : actionPhase env s m = StepResult.finished s2 l) :
    ∃ dmg,
      dmg = damageCalc s.atk.attack s.dfd.defense (m.power.getD 0)
        (battleEffectiveness m.type s.dfd.types) s.atk.status ∧
      ((s.dfd.hp - dmg ≤ 0 ∧ s2 = { s with dfd := { s.dfd with hp := s.dfd.hp - dmg } }) ∨
       (¬(s.dfd.hp - dmg ≤ 0) ∧ ∃ c2 log2,
          c2 = (applyAilment env s.turn m { s.dfd with hp := s.dfd.hp - dmg }).1 ∧
          endOfTurnTick { s with dfd := c2 } log2 = StepResult.finished s2 l)) := by
  simp only [actionPhase] at h
  split at h
  · next hfaint =>
    refine ⟨_, rfl, Or.inl ⟨hfaint, ?_⟩⟩
    cases h
    rfl
  · next hsurv =>
    exact ⟨_, rfl, Or.inr ⟨hsurv, _, _, rfl, h⟩⟩

theorem turnStep_decomp (env : Env) (f : Nat) (s : BattleState) (r : StepResult)
    (h : turnStep env f s = some r) :
    ((s.atk.status = some Ailment.paralysis ∧ env.paraRoll s.turn < 1/4) ∧
      endOfTurnTick s [Event.turnBanner s.turn, Event.paralyzedSkip s.atk.name] = r) ∨
    (¬(s.atk.status = some Ailment.paralysis ∧ env.paraRoll s.turn < 1/4) ∧
      ∃ m, selectMoveAux env s.turn s.atk.moves 0 f = some m ∧ actionPhase env s m = r) := by
  unfold turnStep at h
  split at h
  · next hc =>
    left
    exact ⟨hc, Option.some.inj h⟩
  · next hc =>
    right
    refine ⟨hc, ?_⟩
    split at h
    · exact Option.noConfusion h
    · next m hsel => exact ⟨m, hsel, Option.some.inj h⟩

theorem turnStep_total (env : Env) (f : Nat) (s : BattleState)
    (hsel : (selectMoveAux env s.turn s.atk.moves 0 f).isSome = true) :
    ∃ r, turnStep env f s = some r := by
  unfold turnStep
  split
  · exact ⟨_, rfl⟩
  · cases hs : selectMoveAux env s.turn s.atk.moves 0 f with
    | none => rw [hs] at hsel; simp at hsel
    | some m =>
      exact ⟨_, rfl⟩

theorem turnStep_next_facts (env : Env) (f : Nat) (s s2 : BattleState) (l : List Event)
    (hpa : 0 < s.atk.hp) (hpd : 0 < s.dfd.hp)
    (h : turnStep env f s = some (StepResult.next s2 l)) :
    0 < s2.atk.hp ∧ 0 < s2.dfd.hp ∧
    s2.atk.moves = s.dfd.moves ∧ s2.dfd.moves = s.atk.moves ∧
    s2.atk.maxHp = s.dfd.maxHp ∧ s2.dfd.maxHp = s.atk.maxHp ∧
    s2.atkIsP1 = !s.atkIsP1 ∧ s2.turn = s.turn + 1 ∧
    s2.atk.hp ≤ s.dfd.hp ∧ s2.dfd.hp ≤ s.atk.hp ∧
    ((s.atk.status = some Ailment.paralysis ∧ env.paraRoll s.turn < 1/4) ∨
      s2.atk.hp + s2.dfd.hp < s.atk.hp + s.dfd.hp) := by
  rcases turnStep_decomp env f s _ h with ⟨hc, htick⟩ | ⟨hc, m, hsel, hact⟩
  · obtain ⟨hflag, hturn, hatk, _, hmax, _, _, _, _, hmv, hstat, hle, hpos, _, _, _⟩ :=
      endOfTurnTick_next _ _ _ _ htick
    refine ⟨?_, hpos hpa, ?_, hmv, ?_, hmax, hflag, hturn, ?_, hle, Or.inl hc⟩
    · rw [hatk]; exact hpd
    · rw [hatk]
    · rw [hatk]
    · rw [hatk]
  · obtain ⟨dmg, c2, log2, hdmg, hsurv, hc2, htick⟩ := actionPhase_next_decomp env s m _ _ hact
    have hm : usableMove m = true := selectMoveAux_usable env s.turn s.atk.moves f 0 m hsel
    have hdmg1 : 1 ≤ dmg := by
      rw [hdmg]
      exact damageCalc_ge_one _ _ _ _ _ (le_of_lt (usableMove_power hm))
        (battleEffectiveness_nonneg _ _)
    obtain ⟨hfn, hfhp, hfmax, _, _, _, _, hfmv⟩ :=
      applyAilment_fields env s.turn m { s.dfd with hp := s.dfd.hp - dmg }
    obtain ⟨hflag, hturn, hatk, _, hmax, _, _, _, _, hmv, hstat, hle, hpos, _, _, _⟩ :=
      endOfTurnTick_next _ _ _ _ htick
    have hc2hp : c2.hp = s.dfd.hp - dmg := by rw [hc2]; exact hfhp
    have hc2mv : c2.moves = s.dfd.moves := by rw [hc2]; exact hfmv
    have hc2max : c2.maxHp = s.dfd.maxHp := by rw [hc2]; exact hfmax
    refine ⟨?_, hpos hpa, ?_, hmv, ?_, hmax, hflag, hturn, ?_, hle, Or.inr ?_⟩
    · rw [hatk]
      show 0 < c2.hp
      omega
    · rw [hatk]
      exact hc2mv
    · rw [hatk]
      exact hc2max
    · rw [hatk]
      show c2.hp ≤ s.dfd.hp
      omega
    · have h1 : s2.atk.hp = c2.hp := by rw [hatk]
      have h2 : s2.dfd.hp ≤ s.atk.hp := hle
      omega

theorem turnStep_finished_facts (env : Env) (f : Nat) (s s2 : BattleState) (l : List Event)
    (hpa : 0 < s.atk.hp) (hpd : 0 < s.dfd.hp)
    (h : turnStep env f s = some (StepResult.finished s2 l)) :
    ((0 < s2.atk.hp ∧ s2.dfd.hp ≤ 0) ∨ (s2.atk.hp ≤ 0 ∧ 0 < s2.dfd.hp)) ∧
    s2.atkIsP1 = s.atkIsP1 ∧
    s2.atk.hp ≤ s.atk.hp ∧ s2.dfd.hp ≤ s.dfd.hp ∧
    s2.atk.maxHp = s.atk.maxHp ∧ s2.dfd.maxHp = s.dfd.maxHp := by
  rcases turnStep_decomp env f s _ h with ⟨hc, htick⟩ | ⟨hc, m, hsel, hact⟩
  · obtain ⟨hflag, _, hdfd, hhp, hle0, _, _, hmax, _, _⟩ := endOfTurnTick_finished _ _ _ _ htick
    refine ⟨Or.inr ⟨hle0, ?_⟩, hflag, ?_, ?_, hmax, ?_⟩
    · rw [hdfd]; exact hpd
    · have : (0 : Int) ≤ ((s.atk.maxHp / 8 : Nat) : Int) := Int.ofNat_nonneg _
      omega
    · rw [hdfd]
    · rw [hdfd]
  · obtain ⟨dmg, hdmg, hcases⟩ := actionPhase_finished_decomp env s m _ _ hact
    have hm : usableMove m = true := selectMoveAux_usable env s.turn s.atk.moves f 0 m hsel
    have hdmg1 : 1 ≤ dmg := by
      rw [hdmg]
      exact damageCalc_ge_one _ _ _ _ _ (le_of_lt (usableMove_power hm))
        (battleEffectiveness_nonneg _ _)
    rcases hcases with ⟨hfaint, hs2⟩ | ⟨hsurv, c2, log2, hc2, htick⟩
    · rw [hs2]
      refine ⟨Or.inl ⟨hpa, hfaint⟩, rfl, le_refl _, ?_, rfl, rfl⟩
      show s.dfd.hp - dmg ≤ s.dfd.hp
      omega
    · obtain ⟨hffn, hfhp, hfmax, _, _, _, _, _⟩ :=
        applyAilment_fields env s.turn m { s.dfd with hp := s.dfd.hp - dmg }
      obtain ⟨hflag, _, hdfd, hhp, hle0, _, _, hmax, _, _⟩ := endOfTurnTick_finished _ _ _ _ htick
      have hc2hp : c2.hp = s.dfd.hp - dmg := by rw [hc2]; exact hfhp
      have hc2max : c2.maxHp = s.dfd.maxHp := by rw [hc2]; exact hfmax
      have hhp2 : s2.atk.hp = s.atk.hp - ((s.atk.maxHp / 8 : Nat) : Int) := hhp
      refine ⟨Or.inr ⟨hle0, ?_⟩, hflag, ?_, ?_, hmax, ?_⟩
      · rw [hdfd]
        show 0 < c2.hp
        omega
      · have : (0 : Int) ≤ ((s.atk.maxHp / 8 : Nat) : Int) := Int.ofNat_nonneg _
        omega
      · rw [hdfd]
        show c2.hp ≤ s.dfd.hp
        omega
      · rw [hdfd]
        exact hc2max

theorem turnStep_next_status (env : Env) (f : Nat) (s s2 : BattleState) (l : List Event)
    (h : turnStep env f s = some (StepResult.next s2 l)) :
    s2.dfd.status = s.atk.status ∧
    (∀ a, s.dfd.status = some a → s2.atk.status = some a) ∧
    (s2.atk.status ≠ s.dfd.status →
      s.dfd.status = none ∧ ∃ m mt a, selectMoveAux env s.turn s.atk.moves 0 f = some m ∧
        m.meta = some mt ∧ toAilment mt.ailment = some a ∧ s2.atk.status = some a ∧
        env.ailmentRoll s.turn < (mt.ailment_chance : ℚ) / 100) := by
  rcases turnStep_decomp env f s _ h with ⟨hc, htick⟩ | ⟨hc, m, hsel, hact⟩
  · obtain ⟨_, _, hatk, _, _, _, _, _, _, _, hstat, _, _, _, _, _⟩ :=
      endOfTurnTick_next _ _ _ _ htick
    refine ⟨hstat, ?_, ?_⟩
    · intro a ha
      rw [hatk]
      exact ha
    · intro hne
      exact absurd (by rw [hatk]) hne
  · obtain ⟨dmg, c2, log2, hdmg, hsurv, hc2, htick⟩ := actionPhase_next_decomp env s m _ _ hact
    obtain ⟨_, _, hatk, _, _, _, _, _, _, _, hstat, _, _, _, _, _⟩ :=
      endOfTurnTick_next _ _ _ _ htick
    refine ⟨hstat, ?_, ?_⟩
    · intro a ha
      rw [hatk, hc2]
      exact applyAilment_status_pres env s.turn m _ a ha
    · intro hne
      rw [hatk, hc2] at hne
      obtain ⟨hnone, mt, a, hmt, hta, hset, hroll⟩ :=
        applyAilment_status_change env s.turn m _ hne
      refine ⟨hnone, m, mt, a, hsel, hmt, hta, ?_, hroll⟩
      rw [hatk, hc2]
      exact hset

theorem turnStep_finished_status (env : Env) (f : Nat) (s s2 : BattleState) (l : List Event)
    (h : turnStep env f s = some (StepResult.finished s2 l)) :
    s2.atk.status = s.atk.status ∧ (∀ a, s.dfd.status = some a → s2.dfd.status = some a) := by
  rcases turnStep_decomp env f s _ h with ⟨hc, htick⟩ | ⟨hc, m, hsel, hact⟩
  · obtain ⟨_, _, hdfd, _, _, hstat, _, _, _, _⟩ := endOfTurnTick_finished _ _ _ _ htick
    refine ⟨hstat, ?_⟩
    intro a ha
    rw [hdfd]
    exact ha
  · obtain ⟨dmg, hdmg, hcases⟩ := actionPhase_finished_decomp env s m _ _ hact
    rcases hcases with ⟨hfaint, hs2⟩ | ⟨hsurv, c2, log2, hc2, htick⟩
    · rw [hs2]
      exact ⟨rfl, fun a ha => ha⟩
    · obtain ⟨_, _, hdfd, _, _, hstat, _, _, _, _⟩ := endOfTurnTick_finished _ _ _ _ htick
      refine ⟨hstat, ?_⟩
      intro a ha
      rw [hdfd, hc2]
      exact applyAilment_status_pres env s.turn m _ a ha

/-- HP values displayed in the battle log are clamped to zero; every other
event is unconstrained. -/
def shownOk : Event → Bool
  | Event.tookDamage _ _ shown => decide (0 ≤ shown)
  | _ => true

/-- The log of a step result. -/
def resultLog : StepResult → List Event
  | StepResult.next _ l => l
  | StepResult.finished _ l => l

theorem effEvents_ok (eff : ℚ) (n : String) : ∀ e ∈ effEvents eff n, shownOk e = true := by
  unfold effEvents
  split
  · intro e he
    simp only [List.mem_singleton] at he
    rw [he]
    rfl
  · split
    · intro e he
      simp only [List.mem_singleton] at he
      rw [he]
      rfl
    · split
      · intro e he
        simp only [List.mem_singleton] at he
        rw [he]
        rfl
      · intro e he
        simp at he

theorem applyAilment_log (env : Env) (t : Nat) (m : RawMove) (c : Combatant) :
    ∀ e ∈ (applyAilment env t m c).2, shownOk e = true := by
  unfold applyAilment
  split
  · intro e he
    simp at he
  · split
    · split
      · intro e he
        simp at he
      · split
        · intro e he
          simp only [List.mem_singleton] at he
          rw [he]
          rfl
        · intro e he
          simp at he
    · intro e he
      simp at he

theorem endOfTurnTick_log (s : BattleState) (log : List Event) (r : StepResult)
    (h : endOfTurnTick s log = r) :
    ∃ suf, resultLog r = log ++ suf ∧ ∀ e ∈ suf, shownOk e = true := by
  simp only [endOfTurnTick] at h
  split at h
  · split at h
    · refine ⟨[Event.statusDamage s.atk.name ((s.atk.maxHp / 8 : Nat) : Int), Event.fainted s.atk.name], ?_, ?_⟩
      · rw [← h]
        simp [resultLog]
      · intro e he
        simp only [List.mem_cons, List.mem_singleton, List.not_mem_nil, or_false] at he
        rcases he with rfl | rfl <;> rfl
    · refine ⟨[Event.statusDamage s.atk.name ((s.atk.maxHp / 8 : Nat) : Int), Event.blank], ?_, ?_⟩
      · rw [← h]
        simp [resultLog]
      · intro e he
        simp only [List.mem_cons, List.mem_singleton, List.not_mem_nil, or_false] at he
        rcases he with rfl | rfl <;> rfl
  · refine ⟨[Event.blank], ?_, ?_⟩
    · rw [← h]
      simp [resultLog]
    · intro e he
      simp only [List.mem_singleton] at he
      rw [he]
      rfl

theorem actionLog_ok (t : Nat) (an mn dn : String) (eff : ℚ) (d x : Int) :
    ∀ e ∈ [Event.turnBanner t, Event.usedMove an mn] ++ effEvents eff dn ++
        [Event.tookDamage dn d (max 0 x)], shownOk e = true := by
  intro e he
  rcases List.mem_append.mp he with h1 | h2
  · rcases List.mem_append.mp h1 with h3 | h4
    · simp only [List.mem_cons, List.not_mem_nil, or_false] at h3
      rcases h3 with rfl | rfl <;> rfl
    · exact effEvents_ok _ _ e h4
  · simp only [List.mem_singleton] at h2
    rw [h2]
    simp only [shownOk, decide_eq_true_eq]
    exact le_max_left _ _

theorem turnStep_log (env : Env) (f : Nat) (s : BattleState) (r : StepResult)
    (h : turnStep env f s = some r) :
    ∀ e ∈ resultLog r, shownOk e = true := by
  rcases turnStep_decomp env f s _ h with ⟨hc, htick⟩ | ⟨hc, m, hsel, hact⟩
  · obtain ⟨suf, hl, hsuf⟩ := endOfTurnTick_log _ _ _ htick
    rw [hl]
    intro e he
    rcases List.mem_append.mp he with hbase | hs
    · simp only [List.mem_cons, List.mem_singleton, List.not_mem_nil, or_false] at hbase
      rcases hbase with rfl | rfl <;> rfl
    · exact hsuf e hs
  · simp only [actionPhase] at hact
    split at hact
    · rw [← hact]
      intro e he
      simp only [resultLog] at he
      rcases List.mem_append.mp he with h1 | h2
      · exact actionLog_ok _ _ _ _ _ _ _ e h1
      · simp only [List.mem_singleton] at h2
        rw [h2]
        rfl
    · obtain ⟨suf, hl, hsuf⟩ := endOfTurnTick_log _ _ _ hact
      rw [hl]
      intro e he
      rcases List.mem_append.mp he with hbase | hs
      · rcases List.mem_append.mp hbase with h1 | h2
        · exact actionLog_ok _ _ _ _ _ _ _ e h1
        · exact applyAilment_log env s.turn m _ e h2
      · exact hsuf e hs

theorem guard_iff (s : BattleState) :
    (0 < (p1 s).hp ∧ 0 < (p2 s).hp) ↔ (0 < s.atk.hp ∧ 0 < s.dfd.hp) := by
  unfold p1 p2
  cases hb : s.atkIsP1 <;> simp [hb, and_comm]

theorem exactlyOne_iff (s : BattleState) :
    ((0 < s.atk.hp ∧ s.dfd.hp ≤ 0) ∨ (s.atk.hp ≤ 0 ∧ 0 < s.dfd.hp)) ↔
    ((0 < (p1 s).hp ∧ (p2 s).hp ≤ 0) ∨ ((p1 s).hp ≤ 0 ∧ 0 < (p2 s).hp)) := by
  unfold p1 p2
  cases hb : s.atkIsP1 <;> simp [hb, and_comm, or_comm]

/-! ## Run-level lemmas -/

/-- Termination measure: turns left before paralysis skips become
impossible, plus total remaining HP. -/
def measureN (N : Nat) (s : BattleState) : Nat :=
  (N - s.turn) + (s.atk.hp + s.dfd.hp).toNat

theorem runBattle_terminates (env : Env) (f : Nat) (M1 M2 : List String) (N : Nat)
    (hsel : ∀ t mv, (mv = M1 ∨ mv = M2) → (selectMoveAux env t mv 0 f).isSome = true)
    (hskip : ∀ t, N ≤ t → ¬ env.paraRoll t < 1/4) :
    ∀ n s log, measureN N s ≤ n →
      (s.atk.moves = M1 ∨ s.atk.moves = M2) → (s.dfd.moves = M1 ∨ s.dfd.moves = M2) →
      0 < s.atk.hp → 0 < s.dfd.hp →
      ∃ final flog, runBattle env f (n + 1) s log = some (final, flog) ∧
        ((0 < final.atk.hp ∧ final.dfd.hp ≤ 0) ∨ (final.atk.hp ≤ 0 ∧ 0 < final.dfd.hp)) := by
  intro n
  induction n with
  | zero =>
    intro s log hm _ _ hpa hpd
    exfalso
    unfold measureN at hm
    omega
  | succ n ih =>
    intro s log hm hmv1 hmv2 hpa hpd
    have hga : 0 < (p1 s).hp ∧ 0 < (p2 s).hp := (guard_iff s).mpr ⟨hpa, hpd⟩
    obtain ⟨r, hstep⟩ := turnStep_total env f s (hsel s.turn s.atk.moves hmv1)
    rw [runBattle, if_pos hga, hstep]
    cases r with
    | finished s2 l =>
      obtain ⟨hone, _⟩ := turnStep_finished_facts env f s s2 l hpa hpd hstep
      exact ⟨s2, log ++ l, rfl, hone⟩
    | next s2 l =>
      obtain ⟨h1, h2, h3, h4, _, _, _, hturn, h9, h10, hdec⟩ :=
        turnStep_next_facts env f s s2 l hpa hpd hstep
      have hms : measureN N s2 ≤ n := by
        unfold measureN at hm ⊢
        rcases hdec with ⟨hpar, hroll⟩ | hlt
        · have hN : s.turn < N := by
            by_contra hge
            exact hskip s.turn (by omega) hroll
          omega
        · omega
      exact ih s2 (log ++ l) hms (by rw [h3]; exact hmv2) (by rw [h4]; exact hmv1) h1 h2

theorem pState_flip {s s2 : BattleState} (hflag : s2.atkIsP1 = !s.atkIsP1) :
    (s.atkIsP1 = true → p1 s2 = s2.dfd ∧ p2 s2 = s2.atk ∧ p1 s = s.atk ∧ p2 s = s.dfd) ∧
    (s.atkIsP1 = false → p1 s2 = s2.atk ∧ p2 s2 = s2.dfd ∧ p1 s = s.dfd ∧ p2 s = s.atk) := by
  unfold p1 p2
  rw [hflag]
  constructor <;> intro hb <;> rw [hb] <;> simp

theorem pState_same {s s2 : BattleState} (hflag : s2.atkIsP1 = s.atkIsP1) :
    (s.atkIsP1 = true → p1 s2 = s2.atk ∧ p2 s2 = s2.dfd ∧ p1 s = s.atk ∧ p2 s = s.dfd) ∧
    (s.atkIsP1 = false → p1 s2 = s2.dfd ∧ p2 s2 = s2.atk ∧ p1 s = s.dfd ∧ p2 s = s.atk) := by
  unfold p1 p2
  rw [hflag]
  constructor <;> intro hb <;> rw [hb] <;> simp

theorem runBattle_inv (env : Env) (f : Nat) :
    ∀ n s log final flog, runBattle env f n s log = some (final, flog) →
      (p1 final).hp ≤ (p1 s).hp ∧ (p2 final).hp ≤ (p2 s).hp ∧
      (p1 final).maxHp = (p1 s).maxHp ∧ (p2 final).maxHp = (p2 s).maxHp ∧
      (∀ a, (p1 s).status = some a → (p1 final).status = some a) ∧
      (∀ a, (p2 s).status = some a → (p2 final).status = some a) ∧
      (∀ e ∈ flog, e ∈ log ∨ shownOk e = true) := by
  intro n
  induction n with
  | zero =>
    intro s log final flog h
    rw [runBattle] at h
    exact Option.noConfusion h
  | succ n ih =>
    intro s log final flog h
    rw [runBattle] at h
    split at h
    · next hga =>
      have hpa : 0 < s.atk.hp := ((guard_iff s).mp hga).1
      have hpd : 0 < s.dfd.hp := ((guard_iff s).mp hga).2
      cases hstep : turnStep env f s with
      | none => rw [hstep] at h; exact Option.noConfusion h
      | some r =>
        rw [hstep] at h
        have hlog := turnStep_log env f s r hstep
        cases r with
        | finished s2 l =>
          obtain ⟨_, hflag, hlea, hled, hmaxa, hmaxd⟩ :=
            turnStep_finished_facts env f s s2 l hpa hpd hstep
          obtain ⟨hsa, hsd⟩ := turnStep_finished_status env f s s2 l hstep
          simp only at h
          cases h
          have hlogc : ∀ e ∈ log ++ l, e ∈ log ∨ shownOk e = true := by
            intro e he
            rcases List.mem_append.mp he with h1 | h2
            · exact Or.inl h1
            · exact Or.inr (hlog e h2)
          cases hb : s.atkIsP1 with
          | true =>
            obtain ⟨e1, e2, e3, e4⟩ := (pState_same hflag).1 hb
            rw [e1, e2, e3, e4]
            exact ⟨hlea, hled, hmaxa, hmaxd, fun a ha => (by rw [hsa]; exact ha),
              fun a ha => hsd a ha, hlogc⟩
          | false =>
            obtain ⟨e1, e2, e3, e4⟩ := (pState_same hflag).2 hb
            rw [e1, e2, e3, e4]
            exact ⟨hled, hlea, hmaxd, hmaxa, fun a ha => hsd a ha,
              fun a ha => (by rw [hsa]; exact ha), hlogc⟩
        | next s2 l =>
          simp only at h
          obtain ⟨_, _, _, _, hmaxa, hmaxd, hflag, _, hlea, hled, _⟩ :=
            turnStep_next_facts env f s s2 l hpa hpd hstep
          obtain ⟨hsd, hsetk, _⟩ := turnStep_next_status env f s s2 l hstep
          obtain ⟨q1, q2, q3, q4, q5, q6, q7⟩ := ih s2 (log ++ l) final flog h
          have hlogc : ∀ e ∈ flog, e ∈ log ∨ shownOk e = true := by
            intro e he
            rcases q7 e he with h1 | h2
            · rcases List.mem_append.mp h1 with h3 | h4
              · exact Or.inl h3
              · exact Or.inr (hlog e h4)
            · exact Or.inr h2
          cases hb : s.atkIsP1 with
          | true =>
            obtain ⟨e1, e2, e3, e4⟩ := (pState_flip hflag).1 hb
            rw [e1] at q1 q3 q5
            rw [e2] at q2 q4 q6
            rw [e3, e4]
            refine ⟨le_trans q1 hled, le_trans q2 hlea, by rw [q3, hmaxd], by rw [q4, hmaxa],
              ?_, ?_, hlogc⟩
            · intro a ha
              exact q5 a (by rw [hsd]; exact ha)
            · intro a ha
              exact q6 a (hsetk a ha)
          | false =>
            obtain ⟨e1, e2, e3, e4⟩ := (pState_flip hflag).2 hb
            rw [e1] at q1 q3 q5
            rw [e2] at q2 q4 q6
            rw [e3, e4]
            refine ⟨le_trans q1 hlea, le_trans q2 hled, by rw [q3, hmaxa], by rw [q4, hmaxd],
              ?_, ?_, hlogc⟩
            · intro a ha
              exact q5 a (hsetk a ha)
            · intro a ha
              exact q6 a (by rw [hsd]; exact ha)
    · cases h
      exact ⟨le_refl _, le_refl _, rfl, rfl, fun a ha => ha, fun a ha => ha,
        fun e he => Or.inl he⟩

/-! ## A concrete battle in which the loop never terminates

Both Pokémon know a single weak paralysing move.  Turn 1 paralyses the
second Pokémon, turn 2 paralyses the first; from turn 3 on every paralysis
roll is below 25%, so both combatants skip forever and the loop never
exits. -/

def cexMove : RawMove := ⟨"tackle", some 1, "normal", some ⟨"paralysis", 100⟩⟩

def cexP1 : Combatant := ⟨"A", 100, 100, 1, 100, 2, ["normal"], ["m"], none⟩

def cexP2 : Combatant := ⟨"B", 100, 100, 1, 100, 1, ["normal"], ["m"], none⟩

def cexEnv : Env :=
  { fetch := fun _ _ _ => some cexMove,
    chooseMove := fun _ _ => 0,
    paraRoll := fun t => if t ≤ 2 then 1/2 else 1/10,
    ailmentRoll := fun _ => 0 }

def cexS1 : BattleState :=
  ⟨⟨"B", 98, 100, 1, 100, 1, ["normal"], ["m"], some Ailment.paralysis⟩, cexP1, false, 2⟩

def cexL1 : List Event :=
  [Event.turnBanner 1, Event.usedMove "A" "tackle", Event.tookDamage "B" 2 98,
   Event.afflicted "B" "paralysis", Event.blank]

def cexS2 : BattleState :=
  ⟨⟨"A", 98, 100, 1, 100, 2, ["normal"], ["m"], some Ailment.paralysis⟩,
   ⟨"B", 98, 100, 1, 100, 1, ["normal"], ["m"], some Ailment.paralysis⟩, true, 3⟩

def cexL2 : List Event :=
  [Event.turnBanner 2, Event.usedMove "B" "tackle", Event.tookDamage "A" 2 98,
   Event.afflicted "A" "paralysis", Event.blank]

theorem effEvents_one (n : String) : effEvents 1 n = [] := by
  unfold effEvents
  rw [if_neg (by norm_num), if_neg (by norm_num), if_neg (by norm_num)]

theorem cex_eff : battleEffectiveness "normal" ["normal"] = 1 := by
  unfold battleEffectiveness lookupEff
  simp [TYPE_EFFECTIVENESS, List.lookup]

theorem cex_dmg (st : Option Ailment) (h : st ≠ some Ailment.burn) :
    damageCalc 1 100 1 1 st = 2 := by
  unfold damageCalc
  rw [if_neg h]
  exact truncQ_eval (by norm_num) (by norm_num) (by norm_num)

theorem cex_ail (t : Nat) (c : Combatant) (h : c.status = none) :
    applyAilment cexEnv t cexMove c =
      ({ c with status := some Ailment.paralysis }, [Event.afflicted c.name "paralysis"]) := by
  have hroll : cexEnv.ailmentRoll t < ((100 : Nat) : ℚ) / 100 := by
    show (0 : ℚ) < ((100 : Nat) : ℚ) / 100
    norm_num
  show (if c.status = none then
          (if cexEnv.ailmentRoll t < ((100 : Nat) : ℚ) / 100 then
            ({ c with status := some Ailment.paralysis }, [Event.afflicted c.name "paralysis"])
          else (c, []))
        else (c, [])) = _
  rw [if_pos h, if_pos hroll]

theorem cex_step1 : turnStep cexEnv 1 (initState cexP1 cexP2) =
    some (StepResult.next cexS1 cexL1) := by
  show some (actionPhase cexEnv ⟨cexP1, cexP2, true, 1⟩ cexMove) = _
  have heff : battleEffectiveness "normal" ["normal"] = 1 := cex_eff
  simp only [actionPhase, cexP1, cexP2, cexMove, Option.getD_some, heff, effEvents_one]
  rw [cex_dmg none (by simp)]
  norm_num
  rw [show applyAilment cexEnv 1
      ⟨"tackle", some 1, "normal", some ⟨"paralysis", 100⟩⟩
      ⟨"B", 98, 100, 1, 100, 1, ["normal"], ["m"], none⟩ =
      (⟨"B", 98, 100, 1, 100, 1, ["normal"], ["m"], some Ailment.paralysis⟩,
       [Event.afflicted "B" "paralysis"]) from cex_ail 1 _ rfl]
  rfl

theorem cex_step2 : turnStep cexEnv 1 cexS1 = some (StepResult.next cexS2 cexL2) := by
  unfold turnStep
  rw [if_neg ?skip]
  case skip =>
    intro hand
    have h2 : cexEnv.paraRoll cexS1.turn < 1/4 := hand.2
    have h3 : ((1 : ℚ)/2) < 1/4 := h2
    norm_num at h3
  show some (actionPhase cexEnv cexS1 cexMove) = _
  have heff : battleEffectiveness "normal" ["normal"] = 1 := cex_eff
  simp only [actionPhase, cexS1, cexP1, cexMove, Option.getD_some, heff, effEvents_one]
  rw [cex_dmg (some Ailment.paralysis) (by simp)]
  norm_num
  rw [show applyAilment cexEnv 2
      ⟨"tackle", some 1, "normal", some ⟨"paralysis", 100⟩⟩
      ⟨"A", 98, 100, 1, 100, 2, ["normal"], ["m"], none⟩ =
      (⟨"A", 98, 100, 1, 100, 2, ["normal"], ["m"], some Ailment.paralysis⟩,
       [Event.afflicted "A" "paralysis"]) from cex_ail 2 _ rfl]
  rfl

theorem cex_skip_step (s : BattleState) (hpar : s.atk.status = some Ailment.paralysis)
    (ht : 3 ≤ s.turn) :
    turnStep cexEnv 1 s = some (StepResult.next (swapState s)
      [Event.turnBanner s.turn, Event.paralyzedSkip s.atk.name, Event.blank]) := by
  have hroll : cexEnv.paraRoll s.turn < 1/4 := by
    show (if s.turn ≤ 2 then (1 : ℚ)/2 else 1/10) < 1/4
    rw [if_neg (by omega)]
    norm_num
  unfold turnStep
  rw [if_pos ⟨hpar, hroll⟩]
  unfold endOfTurnTick
  rw [if_neg (by rw [hpar]; simp)]
  rfl

theorem cex_cycle : ∀ n (s : BattleState) (log : List Event),
    s.atk.status = some Ailment.paralysis → s.dfd.status = some Ailment.paralysis →
    0 < s.atk.hp → 0 < s.dfd.hp → 3 ≤ s.turn →
    runBattle cexEnv 1 n s log = none := by
  intro n
  induction n with
  | zero => intro s log _ _ _ _ _; rfl
  | succ n ih =>
    intro s log hpa hpd ha hd ht
    rw [runBattle, if_pos ((guard_iff s).mpr ⟨ha, hd⟩), cex_skip_step s hpa ht]
    exact ih (swapState s) _ hpd hpa hd ha (by show 3 ≤ s.turn + 1; omega)

theorem cex_norun : ∀ n (log : List Event),
    runBattle cexEnv 1 n (initState cexP1 cexP2) log = none := by
  intro n
  cases n with
  | zero => intro log; rfl
  | succ n =>
    intro log
    rw [runBattle, if_pos (by decide), cex_step1]
    show runBattle cexEnv 1 n cexS1 (log ++ cexL1) = none
    cases n with
    | zero => rfl
    | succ m =>
      rw [runBattle, if_pos (by decide), cex_step2]
      show runBattle cexEnv 1 m cexS2 ((log ++ cexL1) ++ cexL2) = none
      exact cex_cycle m cexS2 _ rfl rfl (by decide) (by decide) (by decide)

/-! ## A concrete battle in which a mid-battle provider fault is retried

The provider call for the first selection attempt of turn 1 fails
(`fetch 1 0 _ = none`, a network error); the selection loop simply redraws,
the second attempt succeeds, and the battle still resolves. -/

def c5Move : RawMove := ⟨"mega-punch", some 200, "normal", none⟩

def c5P1 : Combatant := ⟨"A", 10, 10, 100, 10, 2, ["normal"], ["m"], none⟩

def c5P2 : Combatant := ⟨"B", 10, 10, 100, 10, 1, ["normal"], ["m"], none⟩

def c5Env : Env :=
  { fetch := fun t k _ => if t = 1 ∧ k = 0 then none else some c5Move,
    chooseMove := fun _ _ => 0,
    paraRoll := fun _ => 1/2,
    ailmentRoll := fun _ => 1/2 }

def c5Final : BattleState :=
  ⟨c5P1, ⟨"B", -88, 10, 100, 10, 1, ["normal"], ["m"], none⟩, true, 1⟩

def c5Log : List Event :=
  [Event.turnBanner 1, Event.usedMove "A" "mega-punch", Event.tookDamage "B" 98 0,
   Event.fainted "B"]

theorem c5_dmg : damageCalc 100 10 200 1 none = 98 := by
  unfold damageCalc
  rw [if_neg (by simp)]
  exact truncQ_eval (by norm_num) (by norm_num) (by norm_num)

theorem c5_step : turnStep c5Env 2 (initState c5P1 c5P2) =
    some (StepResult.finished c5Final c5Log) := by
  show some (actionPhase c5Env ⟨c5P1, c5P2, true, 1⟩ c5Move) = _
  have heff : battleEffectiveness "normal" ["normal"] = 1 := cex_eff
  simp only [actionPhase, c5P1, c5P2, c5Move, Option.getD_some, heff, effEvents_one]
  rw [c5_dmg]
  norm_num
  exact ⟨rfl, rfl⟩

theorem c5_run : runBattle c5Env 2 1 (initState c5P1 c5P2) [] = some (c5Final, c5Log) := by
  rw [runBattle, if_pos (by decide), c5_step]
  rfl

/-! ## A concrete battle in which `currentHP` goes negative internally -/

def c6Move : RawMove := ⟨"mega-kick", some 250, "normal", none⟩

def c6P1 : Combatant := ⟨"A", 12, 12, 100, 10, 2, ["normal"], ["m"], none⟩

def c6P2 : Combatant := ⟨"B", 12, 12, 100, 10, 1, ["normal"], ["m"], none⟩

def c6Env : Env :=
  { fetch := fun _ _ _ => some c6Move,
    chooseMove := fun _ _ => 0,
    paraRoll := fun _ => 1/2,
    ailmentRoll := fun _ => 1/2 }

def c6Final : BattleState :=
  ⟨c6P1, ⟨"B", -110, 12, 100, 10, 1, ["normal"], ["m"], none⟩, true, 1⟩

def c6Log : List Event :=
  [Event.turnBanner 1, Event.usedMove "A" "mega-kick", Event.tookDamage "B" 122 0,
   Event.fainted "B"]

theorem c6_dmg : damageCalc 100 10 250 1 none = 122 := by
  unfold damageCalc
  rw [if_neg (by simp)]
  exact truncQ_eval (by norm_num) (by norm_num) (by norm_num)

theorem c6_step : turnStep c6Env 1 (initState c6P1 c6P2) =
    some (StepResult.finished c6Final c6Log) := by
  show some (actionPhase c6Env ⟨c6P1, c6P2, true, 1⟩ c6Move) = _
  have heff : battleEffectiveness "normal" ["normal"] = 1 := cex_eff
  simp only [actionPhase, c6P1, c6P2, c6Move, Option.getD_some, heff, effEvents_one]
  rw [c6_dmg]
  norm_num
  exact ⟨rfl, rfl⟩

theorem c6_run : runBattle c6Env 1 1 (initState c6P1 c6P2) [] = some (c6Final, c6Log) := by
  rw [runBattle, if_pos (by decide), c6_step]
  rfl

/-! ## The breakdown loop as three filters over the type universe -/

theorem classifyFrom_eq (dts : List String) : ∀ l : List String,
    classifyFrom dts l =
      (l.filterMap (fun x =>
          if 2 ≤ battleEffectiveness x dts then
            some (x, if battleEffectiveness x dts = 4 then "4x" else "2x")
          else none),
       l.filterMap (fun x =>
          if battleEffectiveness x dts ≤ 1/2 ∧ 0 < battleEffectiveness x dts then
            some (x, if battleEffectiveness x dts = 1/4 then "0.25x" else "0.5x")
          else none),
       l.filterMap (fun x => if battleEffectiveness x dts = 0 then some x else none)) := by
  intro l
  induction l with
  | nil => rfl
  | cons a rest ih =>
    simp only [List.filterMap_cons]
    by_cases h1 : 2 ≤ battleEffectiveness a dts
    · have h2 : ¬(battleEffectiveness a dts ≤ 1/2 ∧ 0 < battleEffectiveness a dts) := by
        rintro ⟨hx, _⟩
        linarith
      have h3 : ¬(battleEffectiveness a dts = 0) := by
        intro hx
        rw [hx] at h1
        norm_num at h1
      simp only [classifyFrom, ih, if_pos h1, if_neg h2, if_neg h3]
    · by_cases h2 : battleEffectiveness a dts ≤ 1/2 ∧ 0 < battleEffectiveness a dts
      · have h3 : ¬(battleEffectiveness a dts = 0) := by
          intro hx
          rw [hx] at h2
          exact absurd h2.2 (by norm_num)
        simp only [classifyFrom, ih, if_neg h1, if_pos h2, if_neg h3]
      · by_cases h3 : battleEffectiveness a dts = 0
        · simp only [classifyFrom, ih, if_neg h1, if_neg h2, if_pos h3]
        · simp only [classifyFrom, ih, if_neg h1, if_neg h2, if_neg h3]

theorem actionPhase_hp_strict (env : Env) (s : BattleState) (m : RawMove)
    (hm : usableMove m = true) :
    (∀ s2 l, actionPhase env s m = StepResult.next s2 l → s2.atk.hp < s.dfd.hp) ∧
    (∀ s2 l, actionPhase env s m = StepResult.finished s2 l → s2.dfd.hp < s.dfd.hp) := by
  have hdmg1 : 1 ≤ damageCalc s.atk.attack s.dfd.defense (m.power.getD 0)
      (battleEffectiveness m.type s.dfd.types) s.atk.status :=
    damageCalc_ge_one _ _ _ _ _ (le_of_lt (usableMove_power hm)) (battleEffectiveness_nonneg _ _)
  constructor
  · intro s2 l h
    obtain ⟨dmg, c2, log2, hdmg, hsurv, hc2, htick⟩ := actionPhase_next_decomp env s m _ _ h
    obtain ⟨_, _, hatk, _, _, _, _, _, _, _, _, _, _, _, _, _⟩ := endOfTurnTick_next _ _ _ _ htick
    have hc2hp : c2.hp = s.dfd.hp - dmg := by
      rw [hc2]
      exact (applyAilment_fields env s.turn m _).2.1
    have hs2 : s2.atk.hp = c2.hp := by rw [hatk]
    omega
  · intro s2 l h
    obtain ⟨dmg, hdmg, hcases⟩ := actionPhase_finished_decomp env s m _ _ h
    rcases hcases with ⟨hfaint, hs2⟩ | ⟨hsurv, c2, log2, hc2, htick⟩
    · rw [hs2]
      show s.dfd.hp - dmg < s.dfd.hp
      omega
    · obtain ⟨_, _, hdfd, _, _, _, _, _, _, _⟩ := endOfTurnTick_finished _ _ _ _ htick
      have hc2hp : c2.hp = s.dfd.hp - dmg := by
        rw [hc2]
        exact (applyAilment_fields env s.turn m _).2.1
      have hs2 : s2.dfd.hp = c2.hp := by rw [hdfd]
      omega

theorem turnStep_maxHp_next (env : Env) (f : Nat) (s s2 : BattleState) (l : List Event)
    (hpa : 0 < s.atk.hp) (hpd : 0 < s.dfd.hp)
    (h : turnStep env f s = some (StepResult.next s2 l)) :
    (p1 s2).maxHp = (p1 s).maxHp ∧ (p2 s2).maxHp = (p2 s).maxHp := by
  obtain ⟨_, _, _, _, hmaxa, hmaxd, hflag, _, _, _, _⟩ :=
    turnStep_next_facts env f s s2 l hpa hpd h
  cases hb : s.atkIsP1 with
  | true =>
    obtain ⟨e1, e2, e3, e4⟩ := (pState_flip hflag).1 hb
    rw [e1, e2, e3, e4]
    exact ⟨hmaxd, hmaxa⟩
  | false =>
    obtain ⟨e1, e2, e3, e4⟩ := (pState_flip hflag).2 hb
    rw [e1, e2, e3, e4]
    exact ⟨hmaxa, hmaxd⟩

theorem turnStep_maxHp_finished (env : Env) (f : Nat) (s s2 : BattleState) (l : List Event)
    (hpa : 0 < s.atk.hp) (hpd : 0 < s.dfd.hp)
    (h : turnStep env f s = some (StepResult.finished s2 l)) :
    (p1 s2).maxHp = (p1 s).maxHp ∧ (p2 s2).maxHp = (p2 s).maxHp := by
  obtain ⟨_, hflag, _, _, hmaxa, hmaxd⟩ := turnStep_finished_facts env f s s2 l hpa hpd h
  cases hb : s.atkIsP1 with
  | true =>
    obtain ⟨e1, e2, e3, e4⟩ := (pState_same hflag).1 hb
    rw [e1, e2, e3, e4]
    exact ⟨hmaxa, hmaxd⟩
  | false =>
    obtain ⟨e1, e2, e3, e4⟩ := (pState_same hflag).2 hb
    rw [e1, e2, e3, e4]
    exact ⟨hmaxd, hmaxa⟩

/-! ## Claim theorems -/

/-- C1 (counterexample): the claim as stated is false.  In the battle of
`cexP1` against `cexP2` under `cexEnv`, the Action Resolver selection loop
terminates on every turn (the provider always answers with a usable move
after one attempt), yet both combatants are paralysed by turn 3 and every
later paralysis roll is below 25%, so the loop skips both combatants
forever and never reaches the `Resolved` state. -/
theorem c1_counterexample : ¬ resolves cexEnv 1 (initState cexP1 cexP2) := by
  rintro ⟨n, r, hr⟩
  rw [cex_norun n []] at hr
  exact Option.noConfusion hr

/-- C1 (amended): for every battle whose Action Resolver selection loop
terminates on each turn AND whose paralysis rolls stop skipping from some
turn `N` on, the battle loop reaches the terminal `Resolved` state after
finitely many turns; at that moment exactly one combatant has
`currentHP > 0` and the other has `currentHP ≤ 0`, and the reported winner
is the combatant with `currentHP > 0`. -/
theorem c1_battle_terminates (env : Env) (selFuel : Nat) (pk1 pk2 : Combatant) (N : Nat)
    (h1 : 0 < pk1.hp) (h2 : 0 < pk2.hp)
    (hsel : ∀ t mv, (mv = pk1.moves ∨ mv = pk2.moves) →
      (selectMoveAux env t mv 0 selFuel).isSome = true)
    (hskip : ∀ t, N ≤ t → ¬ env.paraRoll t < 1/4) :
    ∃ n final log, runBattle env selFuel n (initState pk1 pk2) [] = some (final, log) ∧
      ((0 < (p1 final).hp ∧ (p2 final).hp ≤ 0) ∨ ((p1 final).hp ≤ 0 ∧ 0 < (p2 final).hp)) ∧
      0 < (winner final).hp := by
  have hfacts : 0 < (initState pk1 pk2).atk.hp ∧ 0 < (initState pk1 pk2).dfd.hp ∧
      ((initState pk1 pk2).atk.moves = pk1.moves ∨ (initState pk1 pk2).atk.moves = pk2.moves) ∧
      ((initState pk1 pk2).dfd.moves = pk1.moves ∨ (initState pk1 pk2).dfd.moves = pk2.moves) := by
    unfold initState
    split
    · exact ⟨h1, h2, Or.inl rfl, Or.inr rfl⟩
    · exact ⟨h2, h1, Or.inr rfl, Or.inl rfl⟩
  obtain ⟨final, flog, hrun, hone⟩ :=
    runBattle_terminates env selFuel pk1.moves pk2.moves N hsel hskip
      (measureN N (initState pk1 pk2)) (initState pk1 pk2) [] (le_refl _)
      hfacts.2.2.1 hfacts.2.2.2 hfacts.1 hfacts.2.1
  have honep := (exactlyOne_iff final).mp hone
  refine ⟨measureN N (initState pk1 pk2) + 1, final, flog, hrun, honep, ?_⟩
  unfold winner
  rcases honep with ⟨hp1, _⟩ | ⟨hp1, hp2⟩
  · rw [if_pos hp1]
    exact hp1
  · rw [if_neg (by omega)]
    exact hp2

/-- C1 (witness): a battle with no paralysis at all (every roll is 1/2 and
the provider always answers with a usable move) satisfies the amended
hypotheses, so it resolves with exactly one survivor. -/
def w1Env : Env :=
  { fetch := fun _ _ _ => some c5Move,
    chooseMove := fun _ _ => 0,
    paraRoll := fun _ => 1/2,
    ailmentRoll := fun _ => 1/2 }

theorem c1_battle_terminates_witness : 0 < c5P1.hp ∧ 0 < c5P2.hp ∧
    (∃ n final log, runBattle w1Env 1 n (initState c5P1 c5P2) [] = some (final, log) ∧
      ((0 < (p1 final).hp ∧ (p2 final).hp ≤ 0) ∨ ((p1 final).hp ≤ 0 ∧ 0 < (p2 final).hp)) ∧
      0 < (winner final).hp) :=
  ⟨by decide, by decide,
    c1_battle_terminates w1Env 1 c5P1 c5P2 0 (by decide) (by decide)
      (fun t mv h => by rcases h with rfl | rfl <;> rfl)
      (fun t _ => by
        show ¬ ((1 : ℚ)/2 < 1/4)
        norm_num)⟩

/-- C2: for positive power, attack and defense (and nonnegative
effectiveness), the applied damage is exactly
`floor(((2/5 + 2) * power * (attack / defense)) / 50 * effectiveness + 2)`,
further reduced to `floor(damage * 0.5)` when the attacker is burned, with
truncation only at these two floor points; in particular attack 100,
defense 50, power 60 and effectiveness 1 give 7 damage, and 3 when
burned. -/
theorem c2_damage_formula (a d : Nat) (power : Int) (eff : ℚ) (st : Option Ailment)
    (_ha : 0 < a) (_hd : 0 < d) (hp : 0 < power) (he : 0 ≤ eff) :
    (st ≠ some Ailment.burn →
      damageCalc a d power eff st =
        ⌊((2/5 + 2) * (power : ℚ) * ((a : ℚ) / (d : ℚ))) / 50 * eff + 2⌋) ∧
    (st = some Ailment.burn →
      damageCalc a d power eff st =
        ⌊(((⌊((2/5 + 2) * (power : ℚ) * ((a : ℚ) / (d : ℚ))) / 50 * eff + 2⌋ : Int) : ℚ)) * (1/2)⌋) ∧
    damageCalc 100 50 60 1 none = 7 ∧ damageCalc 100 50 60 1 (some Ailment.burn) = 3 := by
  have hbase := damageCalc_base_nonneg a d power eff (le_of_lt hp) he
  refine ⟨?_, ?_, ?_, ?_⟩
  · intro hb
    unfold damageCalc
    rw [if_neg hb]
    exact truncQ_eq_floor (by linarith)
  · intro hb
    unfold damageCalc
    rw [if_pos hb]
    have hin : (0 : ℚ) ≤ ((2/5 + 2) * (power : ℚ) * ((a : ℚ) / (d : ℚ))) / 50 * eff + 2 := by
      linarith
    rw [truncQ_eq_floor hin]
    have hfl : (2 : Int) ≤ ⌊((2/5 + 2) * (power : ℚ) * ((a : ℚ) / (d : ℚ))) / 50 * eff + 2⌋ := by
      have h2 : ((2 : ℚ)) ≤ ((2/5 + 2) * (power : ℚ) * ((a : ℚ) / (d : ℚ))) / 50 * eff + 2 := by
        linarith
      calc (2 : Int) = ⌊(2 : ℚ)⌋ := by norm_num
        _ ≤ _ := Int.floor_le_floor h2
    apply truncQ_eq_floor
    have h3 : (2 : ℚ) ≤ ((⌊((2/5 + 2) * (power : ℚ) * ((a : ℚ) / (d : ℚ))) / 50 * eff + 2⌋ : Int) : ℚ) := by
      exact_mod_cast hfl
    linarith
  · unfold damageCalc
    rw [if_neg (by simp)]
    exact truncQ_eval (by norm_num) (by norm_num) (by norm_num)
  · unfold damageCalc
    rw [if_pos rfl]
    rw [show truncQ ((2/5 + 2) * ((60 : Int) : ℚ) * (((100 : Nat) : ℚ) / ((50 : Nat) : ℚ)) / 50 * 1 + 2) = 7
      from truncQ_eval (by norm_num) (by norm_num) (by norm_num)]
    exact truncQ_eval (by norm_num) (by norm_num) (by norm_num)

/-- C2 (witness): the formula conjunction instantiated at attack 100,
defense 50, power 60, effectiveness 1. -/
theorem c2_damage_formula_witness : 0 < (100 : Nat) ∧ 0 < (50 : Nat) ∧ 0 < (60 : Int) ∧
    (0 : ℚ) ≤ 1 ∧
    ((none ≠ some Ailment.burn →
      damageCalc 100 50 60 1 none =
        ⌊((2/5 + 2) * ((60 : Int) : ℚ) * (((100 : Nat) : ℚ) / ((50 : Nat) : ℚ))) / 50 * 1 + 2⌋) ∧
    (none = some Ailment.burn →
      damageCalc 100 50 60 1 none =
        ⌊(((⌊((2/5 + 2) * ((60 : Int) : ℚ) * (((100 : Nat) : ℚ) / ((50 : Nat) : ℚ))) / 50 * 1 + 2⌋ : Int) : ℚ)) * (1/2)⌋) ∧
    damageCalc 100 50 60 1 none = 7 ∧ damageCalc 100 50 60 1 (some Ailment.burn) = 3) :=
  ⟨by norm_num, by norm_num, by norm_num, by norm_num,
    c2_damage_formula 100 50 60 1 none (by norm_num) (by norm_num) (by norm_num) (by norm_num)⟩

/-- C3: for a known attacking element, the compound effectiveness against a
single defending element is exactly the table entry (defaulting to 1 when
the pair is unlisted), and against two defending elements it is the product
of the two single-element multipliers. -/
theorem c3_effectiveness_lookup (A D D1 D2 : String) (row : List (String × ℚ))
    (h : TYPE_EFFECTIVENESS.lookup A = some row) :
    battleEffectiveness A [D] = (row.lookup D).getD 1 ∧
    battleEffectiveness A [D1, D2] = battleEffectiveness A [D1] * battleEffectiveness A [D2] := by
  constructor
  · unfold battleEffectiveness lookupEff
    rw [h]
    simp
  · unfold battleEffectiveness lookupEff
    simp [List.foldl]

/-- C3 (witness): fire against grass reads the chart entry 2, and fire
against a water/rock dual type is the product of the two single
lookups. -/
theorem c3_effectiveness_lookup_witness :
    battleEffectiveness "fire" ["grass"] =
      (([("fire", 1/2), ("water", 1/2), ("grass", 2), ("ice", 2), ("bug", 2), ("rock", 1/2),
         ("steel", 2)] : List (String × ℚ)).lookup "grass").getD 1 ∧
    battleEffectiveness "fire" ["water", "rock"] =
      battleEffectiveness "fire" ["water"] * battleEffectiveness "fire" ["rock"] :=
  c3_effectiveness_lookup "fire" "grass" "water" "rock" _ rfl

/-- C4 (counterexample): the claim as stated is false for the battle
engine.  "shadow" is not in the chart, `get_type_effectiveness` reports an
error for it, but the battle engine's effectiveness computation does NOT
fault: `TYPE_EFFECTIVENESS.get(move_type, {})` defaults the whole row to
the empty dict, so the compound multiplier is simply 1. -/
theorem toLower_shadow : "shadow".toLower = "shadow" := by
  show String.map Char.toLower "shadow" = "shadow"
  rw [String.map_eq]
  decide

theorem c4_counterexample :
    TYPE_EFFECTIVENESS.lookup "shadow" = none ∧
    getTypeEffectiveness "shadow" "fire" = none ∧
    battleEffectiveness "shadow" ["fire"] = 1 := by
  refine ⟨rfl, ?_, ?_⟩
  · simp only [getTypeEffectiveness]
    rw [toLower_shadow]
    rfl
  · unfold battleEffectiveness lookupEff
    simp [TYPE_EFFECTIVENESS, List.lookup]

/-- C4 (amended): in the single-pair `get_type_effectiveness` query an
unknown attacking element is an invalid-type error and an unknown defending
element defaults to multiplier 1; in the battle engine an unknown attacking
element is NOT an error: its row defaults to empty, so the multiplier is 1
for every list of defending elements, and an unknown defending element
likewise contributes factor 1. -/
theorem c4_unknown_type_handling :
    (∀ A D : String, TYPE_EFFECTIVENESS.lookup A.toLower = none →
      getTypeEffectiveness A D = none) ∧
    (∀ (A D : String) row, TYPE_EFFECTIVENESS.lookup A.toLower = some row →
      getTypeEffectiveness A D = some ((row.lookup D.toLower).getD 1)) ∧
    (∀ (A : String) (dts : List String), TYPE_EFFECTIVENESS.lookup A = none →
      battleEffectiveness A dts = 1) ∧
    (∀ (A D : String) row, TYPE_EFFECTIVENESS.lookup A = some row → row.lookup D = none →
      battleEffectiveness A [D] = 1) := by
  refine ⟨?_, ?_, ?_, ?_⟩
  · intro A D h
    simp only [getTypeEffectiveness]
    rw [h]
  · intro A D row h
    simp only [getTypeEffectiveness]
    rw [h]
  · intro A dts h
    have hl : ∀ d, lookupEff A d = 1 := by
      intro d
      unfold lookupEff
      rw [h]
      simp [List.lookup]
    unfold battleEffectiveness
    have hfold : ∀ (l : List String) (acc : ℚ),
        l.foldl (fun eff d => eff * lookupEff A d) acc = acc := by
      intro l
      induction l with
      | nil => intro acc; rfl
      | cons d rest ih =>
        intro acc
        rw [List.foldl_cons, hl d, mul_one]
        exact ih acc
    exact hfold dts 1
  · intro A D row h hD
    unfold battleEffectiveness lookupEff
    simp [h, hD]

/-- C4 (witness): the amended behaviour at the unknown attacking element
"shadow". -/
theorem c4_unknown_type_handling_witness :
    TYPE_EFFECTIVENESS.lookup ("shadow".toLower) = none ∧
    getTypeEffectiveness "shadow" "fire" = none :=
  ⟨by rw [toLower_shadow]; rfl, c4_unknown_type_handling.1 "shadow" "fire" (by rw [toLower_shadow]; rfl)⟩

/-- C5 (counterexample): the claim as stated is false.  Under `c5Env` the
provider call for the first selection attempt of turn 1 fails
(`fetch 1 0 _ = none`, modelling a network error mid-battle), yet the
battle is not aborted: the selection loop redraws, the second attempt
succeeds, and the battle reaches the `Resolved` state. -/
theorem c5_counterexample :
    c5Env.fetch 1 0 "m" = none ∧
    (runBattle c5Env 2 1 (initState c5P1 c5P2) []).isSome = true := by
  refine ⟨rfl, ?_⟩
  rw [c5_run]
  rfl

/-- C5 (amended): a provider call that fails (network error or non-success
status) while resolving an action mid-battle is not fatal: the selection
loop simply retries with a fresh random draw, and the battle can still
reach `Resolved` (witnessed concretely by the `c5Env` battle, where the
turn-1 fetch fails once and the battle still resolves). -/
theorem c5_fault_retry :
    (∀ (env : Env) (t k fuel : Nat) (moves : List String) (r : String),
      moves[env.chooseMove t k % moves.length]? = some r →
      env.fetch t k r = none →
      selectMoveAux env t moves k (fuel + 1) = selectMoveAux env t moves (k + 1) fuel) ∧
    (c5Env.fetch 1 0 "m" = none ∧
      runBattle c5Env 2 1 (initState c5P1 c5P2) [] = some (c5Final, c5Log)) := by
  refine ⟨?_, rfl, c5_run⟩
  intro env t k fuel moves r hr hf
  rw [selectMoveAux, hr]
  show (match env.fetch t k r with
    | some m => if usableMove m = true then some m else selectMoveAux env t moves (k + 1) fuel
    | none => selectMoveAux env t moves (k + 1) fuel) = selectMoveAux env t moves (k + 1) fuel
  rw [hf]

/-- C5 (witness): the retry equation at the concrete failing call of the
`c5Env` battle. -/
theorem c5_fault_retry_witness :
    (["m"][c5Env.chooseMove 1 0 % (["m"] : List String).length]? = some "m") ∧
    c5Env.fetch 1 0 "m" = none ∧
    selectMoveAux c5Env 1 ["m"] 0 2 = selectMoveAux c5Env 1 ["m"] 1 1 :=
  ⟨rfl, rfl, c5_fault_retry.1 c5Env 1 0 1 ["m"] "m" rfl rfl⟩

/-- C6: over any whole battle run, each Pokémon's `currentHP` never
increases, every HP value shown in the turn log is clamped to at least 0,
and `currentHP` can go negative internally (in the concrete `c6Env` battle
the loser ends at -110 HP). -/
theorem c6_hp_monotone (env : Env) (f n : Nat) (s final : BattleState) (flog : List Event)
    (h : runBattle env f n s [] = some (final, flog)) :
    (p1 final).hp ≤ (p1 s).hp ∧ (p2 final).hp ≤ (p2 s).hp ∧
    (∀ e ∈ flog, shownOk e = true) ∧
    (runBattle c6Env 1 1 (initState c6P1 c6P2) [] = some (c6Final, c6Log) ∧
      (p2 c6Final).hp < 0) := by
  obtain ⟨q1, q2, _, _, _, _, q7⟩ := runBattle_inv env f n s [] final flog h
  refine ⟨q1, q2, ?_, c6_run, by decide⟩
  intro e he
  rcases q7 e he with h1 | h2
  · simp at h1
  · exact h2

/-- C6 (witness): the monotonicity and log-clamping facts at the concrete
`c6Env` battle. -/
theorem c6_hp_monotone_witness :
    runBattle c6Env 1 1 (initState c6P1 c6P2) [] = some (c6Final, c6Log) ∧
    ((p1 c6Final).hp ≤ (p1 (initState c6P1 c6P2)).hp ∧
     (p2 c6Final).hp ≤ (p2 (initState c6P1 c6P2)).hp ∧
     (∀ e ∈ c6Log, shownOk e = true) ∧
     (runBattle c6Env 1 1 (initState c6P1 c6P2) [] = some (c6Final, c6Log) ∧
       (p2 c6Final).hp < 0)) :=
  ⟨c6_run, c6_hp_monotone c6Env 1 1 (initState c6P1 c6P2) c6Final c6Log c6_run⟩

/-- C7: each combatant holds at most one status at a time (the `status`
field), an already-set status is never changed or cleared for the rest of
the battle, a new status is applied only after a surviving damaging action,
only when the defender's status is `None`, only for ailments in
{paralysis, burn, poison} (others are ignored with no effect and no error),
and only when the roll beats `ailmentChance/100`. -/
theorem c7_status_rules :
    (∀ (env : Env) (f n : Nat) (s : BattleState) (log : List Event) (final : BattleState)
        (flog : List Event), runBattle env f n s log = some (final, flog) →
      (∀ a, (p1 s).status = some a → (p1 final).status = some a) ∧
      (∀ a, (p2 s).status = some a → (p2 final).status = some a)) ∧
    (∀ (env : Env) (f : Nat) (s s2 : BattleState) (l : List Event),
      turnStep env f s = some (StepResult.next s2 l) →
      s2.dfd.status = s.atk.status ∧
      (∀ a, s.dfd.status = some a → s2.atk.status = some a) ∧
      (s2.atk.status ≠ s.dfd.status →
        s.dfd.status = none ∧ ∃ m mt a, selectMoveAux env s.turn s.atk.moves 0 f = some m ∧
          m.meta = some mt ∧ toAilment mt.ailment = some a ∧ s2.atk.status = some a ∧
          env.ailmentRoll s.turn < (mt.ailment_chance : ℚ) / 100)) ∧
    (∀ (env : Env) (t : Nat) (m : RawMove) (c : Combatant) (mt : MoveMeta) (a : Ailment),
      c.status = none → m.meta = some mt → toAilment mt.ailment = some a →
      env.ailmentRoll t < (mt.ailment_chance : ℚ) / 100 →
      (applyAilment env t m c).1.status = some a) ∧
    (∀ (env : Env) (t : Nat) (m : RawMove) (c : Combatant) (mt : MoveMeta),
      m.meta = some mt → toAilment mt.ailment = none →
      applyAilment env t m c = (c, [])) := by
  refine ⟨?_, ?_, ?_, ?_⟩
  · intro env f n s log final flog h
    obtain ⟨_, _, _, _, q5, q6, _⟩ := runBattle_inv env f n s log final flog h
    exact ⟨q5, q6⟩
  · intro env f s s2 l h
    exact turnStep_next_status env f s s2 l h
  · intro env t m c mt a h1 h2 h3 h4
    exact applyAilment_sets env t m c mt a h2 h1 h3 h4
  · intro env t m c mt h1 h2
    exact applyAilment_ignored env t m c mt h1 h2

/-- C7 (witness): the ailment-application rule at a concrete roll: the
100%-chance paralysis of `cexMove` is applied to the status-free `cexP2`. -/
theorem c7_status_rules_witness :
    cexP2.status = none ∧ cexMove.meta = some ⟨"paralysis", 100⟩ ∧
    toAilment "paralysis" = some Ailment.paralysis ∧
    cexEnv.ailmentRoll 0 < (((⟨"paralysis", 100⟩ : MoveMeta).ailment_chance : ℚ)) / 100 ∧
    (applyAilment cexEnv 0 cexMove cexP2).1.status = some Ailment.paralysis := by
  have hroll : cexEnv.ailmentRoll 0 < (((⟨"paralysis", 100⟩ : MoveMeta).ailment_chance : ℚ)) / 100 := by
    show (0 : ℚ) < ((100 : Nat) : ℚ) / 100
    norm_num
  exact ⟨rfl, rfl, rfl, hroll,
    c7_status_rules.2.2.1 cexEnv 0 cexMove cexP2 ⟨"paralysis", 100⟩ Ailment.paralysis
      rfl rfl rfl hroll⟩

/-- C8: at the close of a turn in which the acting combatant is poisoned or
burned, that combatant loses exactly `floor(maxHP / 8)` HP computed from
its fixed original `maxHp` (which no battle step ever changes), and
fainting is re-checked immediately: the battle terminates (the `break` of
lines 263-265) exactly when the ticked HP is ≤ 0. -/
theorem c8_status_tick :
    (∀ (s : BattleState) (log : List Event) (s2 : BattleState) (l : List Event),
      (s.atk.status = some Ailment.poison ∨ s.atk.status = some Ailment.burn) →
      endOfTurnTick s log = StepResult.next s2 l →
      s2.dfd.hp = s.atk.hp - ((s.atk.maxHp / 8 : Nat) : Int) ∧ 0 < s2.dfd.hp) ∧
    (∀ (s : BattleState) (log : List Event) (s2 : BattleState) (l : List Event),
      (s.atk.status = some Ailment.poison ∨ s.atk.status = some Ailment.burn) →
      endOfTurnTick s log = StepResult.finished s2 l →
      s2.atk.hp = s.atk.hp - ((s.atk.maxHp / 8 : Nat) : Int) ∧ s2.atk.hp ≤ 0) ∧
    (∀ (env : Env) (f : Nat) (s s2 : BattleState) (l : List Event),
      0 < s.atk.hp → 0 < s.dfd.hp → turnStep env f s = some (StepResult.next s2 l) →
      (p1 s2).maxHp = (p1 s).maxHp ∧ (p2 s2).maxHp = (p2 s).maxHp) ∧
    (∀ (env : Env) (f : Nat) (s s2 : BattleState) (l : List Event),
      0 < s.atk.hp → 0 < s.dfd.hp → turnStep env f s = some (StepResult.finished s2 l) →
      (p1 s2).maxHp = (p1 s).maxHp ∧ (p2 s2).maxHp = (p2 s).maxHp) := by
  refine ⟨?_, ?_, ?_, ?_⟩
  · intro s log s2 l hst h
    obtain ⟨_, _, _, _, _, _, _, _, _, _, _, _, _, _, heq, hpos⟩ :=
      endOfTurnTick_next s log s2 l h
    exact ⟨heq hst, hpos hst⟩
  · intro s log s2 l hst h
    obtain ⟨_, _, _, hhp, hle, _, _, _, _, _⟩ := endOfTurnTick_finished s log s2 l h
    exact ⟨hhp, hle⟩
  · intro env f s s2 l hpa hpd h
    exact turnStep_maxHp_next env f s s2 l hpa hpd h
  · intro env f s s2 l hpa hpd h
    exact turnStep_maxHp_finished env f s s2 l hpa hpd h

/-- C8 (witness): a poisoned attacker with original `maxHp = 80` and 100 HP
loses exactly `floor(80/8) = 10` HP at the end of its turn and survives. -/
def c8S : BattleState :=
  ⟨⟨"P", 100, 80, 1, 1, 1, ["normal"], ["m"], some Ailment.poison⟩,
   ⟨"Q", 50, 50, 1, 1, 1, ["normal"], ["m"], none⟩, true, 5⟩

def c8S2 : BattleState :=
  ⟨⟨"Q", 50, 50, 1, 1, 1, ["normal"], ["m"], none⟩,
   ⟨"P", 90, 80, 1, 1, 1, ["normal"], ["m"], some Ailment.poison⟩, false, 6⟩

theorem c8_status_tick_witness :
    (c8S.atk.status = some Ailment.poison ∨ c8S.atk.status = some Ailment.burn) ∧
    endOfTurnTick c8S [] = StepResult.next c8S2 [Event.statusDamage "P" 10, Event.blank] ∧
    (c8S2.dfd.hp = c8S.atk.hp - ((c8S.atk.maxHp / 8 : Nat) : Int) ∧ 0 < c8S2.dfd.hp) :=
  ⟨Or.inl rfl, rfl,
    c8_status_tick.1 c8S [] c8S2 [Event.statusDamage "P" 10, Event.blank] (Or.inl rfl) rfl⟩

/-- C9: the weakness/resistance breakdown processes exactly the 18 distinct
chart elements and assigns each one according to its compound multiplier
`e` against the defender's elements: `2 ≤ e` to weaknesses (labelled "4x"
exactly when `e = 4`, otherwise "2x"), `e = 0` to immunities, and
`0 < e ≤ 0.5` to resistances (labelled "0.25x" exactly when `e = 1/4`,
otherwise "0.5x"); any other multiplier lands in no bucket (implicitly
normal), and the three conditions are mutually exclusive, so no element is
counted twice. -/
theorem c9_breakdown_partition (dts : List String) (x : String) :
    breakdown dts =
      (allTypes.filterMap (fun a =>
          if 2 ≤ battleEffectiveness a dts then
            some (a, if battleEffectiveness a dts = 4 then "4x" else "2x")
          else none),
       allTypes.filterMap (fun a =>
          if battleEffectiveness a dts ≤ 1/2 ∧ 0 < battleEffectiveness a dts then
            some (a, if battleEffectiveness a dts = 1/4 then "0.25x" else "0.5x")
          else none),
       allTypes.filterMap (fun a => if battleEffectiveness a dts = 0 then some a else none)) ∧
    allTypes.length = 18 ∧ allTypes.Nodup ∧
    ¬(2 ≤ battleEffectiveness x dts ∧ battleEffectiveness x dts = 0) ∧
    ¬(2 ≤ battleEffectiveness x dts ∧
        battleEffectiveness x dts ≤ 1/2 ∧ 0 < battleEffectiveness x dts) ∧
    ¬(battleEffectiveness x dts = 0 ∧
        battleEffectiveness x dts ≤ 1/2 ∧ 0 < battleEffectiveness x dts) := by
  refine ⟨classifyFrom_eq dts allTypes, rfl, by decide, ?_, ?_, ?_⟩
  · rintro ⟨h1, h2⟩
    rw [h2] at h1
    norm_num at h1
  · rintro ⟨h1, h2, _⟩
    linarith
  · rintro ⟨h1, _, h3⟩
    rw [h1] at h3
    norm_num at h3

/-- C10: every executed attack deals at least 1 damage and strictly
decreases the defender's HP; when the compound effectiveness is 0 the log
carries the "doesn't affect" event yet the constant `+2` term still yields
exactly 2 damage, reduced to 1 when the attacker is burned. -/
theorem c10_min_damage (a d : Nat) (power : Int) (eff : ℚ) (st : Option Ailment)
    (env : Env) (s : BattleState) (m : RawMove) (nm : String)
    (hp : 0 < power) (he : 0 ≤ eff) :
    1 ≤ damageCalc a d power eff st ∧
    (eff = 0 → damageCalc a d power eff st = if st = some Ailment.burn then 1 else 2) ∧
    (eff = 0 → effEvents eff nm = [Event.noEffect nm]) ∧
    (usableMove m = true →
      (∀ s2 l, actionPhase env s m = StepResult.next s2 l → s2.atk.hp < s.dfd.hp) ∧
      (∀ s2 l, actionPhase env s m = StepResult.finished s2 l → s2.dfd.hp < s.dfd.hp)) := by
  refine ⟨damageCalc_ge_one a d power eff st (le_of_lt hp) he, ?_, ?_, ?_⟩
  · intro h0
    subst h0
    simp only [damageCalc, mul_zero, zero_add]
    by_cases hb : st = some Ailment.burn
    · rw [if_pos hb, if_pos hb]
      rw [show truncQ (2 : ℚ) = 2 from truncQ_eval (by norm_num) (by norm_num) (by norm_num)]
      exact truncQ_eval (by norm_num) (by norm_num) (by norm_num)
    · rw [if_neg hb, if_neg hb]
      exact truncQ_eval (by norm_num) (by norm_num) (by norm_num)
  · intro h0
    subst h0
    unfold effEvents
    rw [if_neg (by norm_num), if_neg (by norm_num), if_pos rfl]
  · intro hm
    exact actionPhase_hp_strict env s m hm

/-- C10 (witness): the immunity case concretely: a ghost-type move against
a normal-type defender is a 0x multiplier, yet the damage is exactly 2
(1 when burned), and the `c6Env` attack strictly decreased the defender's
HP. -/
theorem c10_min_damage_witness : 0 < (60 : Int) ∧ (0 : ℚ) ≤ 0 ∧
    (1 ≤ damageCalc 100 50 60 0 none ∧
    ((0 : ℚ) = 0 → damageCalc 100 50 60 0 none = if none = some Ailment.burn then 1 else 2) ∧
    ((0 : ℚ) = 0 → effEvents 0 "B" = [Event.noEffect "B"]) ∧
    (usableMove c6Move = true →
      (∀ s2 l, actionPhase c6Env (initState c6P1 c6P2) c6Move = StepResult.next s2 l →
        s2.atk.hp < (initState c6P1 c6P2).dfd.hp) ∧
      (∀ s2 l, actionPhase c6Env (initState c6P1 c6P2) c6Move = StepResult.finished s2 l →
        s2.dfd.hp < (initState c6P1 c6P2).dfd.hp))) :=
  ⟨by norm_num, le_refl 0,
    c10_min_damage 100 50 60 0 none c6Env (initState c6P1 c6P2) c6Move "B"
      (by norm_num) (le_refl 0)⟩

/-- C9 (witness): the partition instantiated at the single defending
element "flying" and the attacking element "rock". -/
theorem c9_breakdown_partition_witness :
    breakdown ["flying"] =
      (allTypes.filterMap (fun a =>
          if 2 ≤ battleEffectiveness a ["flying"] then
            some (a, if battleEffectiveness a ["flying"] = 4 then "4x" else "2x")
          else none),
       allTypes.filterMap (fun a =>
          if battleEffectiveness a ["flying"] ≤ 1/2 ∧ 0 < battleEffectiveness a ["flying"] then
            some (a, if battleEffectiveness a ["flying"] = 1/4 then "0.25x" else "0.5x")
          else none),
       allTypes.filterMap (fun a =>
          if battleEffectiveness a ["flying"] = 0 then some a else none)) ∧
    allTypes.length = 18 ∧ allTypes.Nodup ∧
    ¬(2 ≤ battleEffectiveness "rock" ["flying"] ∧ battleEffectiveness "rock" ["flying"] = 0) ∧
    ¬(2 ≤ battleEffectiveness "rock" ["flying"] ∧
        battleEffectiveness "rock" ["flying"] ≤ 1/2 ∧
        0 < battleEffectiveness "rock" ["flying"]) ∧
    ¬(battleEffectiveness "rock" ["flying"] = 0 ∧
        battleEffectiveness "rock" ["flying"] ≤ 1/2 ∧
        0 < battleEffectiveness "rock" ["flying"]) :=
  c9_breakdown_partition ["flying"] "rock"
